import Mathlib

/-!
Verification of the workbook-compiler service (`src/app.py`).

The service turns a JSON layout (sheets of positioned widgets) into a
spreadsheet via the `openpyxl` library.  We shallowly embed the compiler:

* a worksheet is a total map from (row, column) integer coordinates to a
  cell state (value, font, fill, border, vertical alignment, number format),
  together with lists of merged ranges, chart objects and column widths and
  a page-setup record;
* `openpyxl`'s `ws.cell` raises `ValueError` when the row or column is
  below 1, so every cell access runs in `Except String`;
* Python `dict`s appearing in the payload become structures with `Option`
  fields (`.get(k)` is the field, `.get(k, d)` is `Option.getD`, `x or d`
  is `getD` after mapping falsy values to the default);
* pixel→inch and pixel→column-width arithmetic is done over `Rat`
  (all quantities involved are exact in both `Rat` and Python floats);
* the 199-iteration loop at the end of `compile_workbook` assigns
  `row_dimensions[r].height = None`, i.e. resets heights to their default;
  row heights are not part of any claim and are not modelled.
-/

/-- A scalar cell value: the payloads relevant to the claims carry strings
and integers.  (Other JSON scalars play no role in any claim.) -/
inductive Val where
  | s : String → Val
  | n : Int → Val
deriving DecidableEq, Repr

/-- Python truthiness for the modelled scalars: `""` and `0` are falsy. -/
def Val.falsy : Val → Bool
  | .s v => v = ""
  | .n v => v = 0

/-- `openpyxl.styles.Side`. -/
structure Side where
  style : String
  color : String
deriving DecidableEq, Repr

/-- `THIN = Side(style="thin", color="D1D5DB")` (src/app.py line 21). -/
def THIN : Side := ⟨"thin", "D1D5DB"⟩

/-- `openpyxl.styles.Border` restricted to the four sides the code sets. -/
structure BorderSpec where
  left : Side
  right : Side
  top : Side
  bottom : Side
deriving DecidableEq, Repr

/-- `BORDER_THIN = Border(left=THIN, right=THIN, top=THIN, bottom=THIN)`. -/
def BORDER_THIN : BorderSpec := ⟨THIN, THIN, THIN, THIN⟩

/-- `HEADER_FILL = PatternFill("solid", fgColor="F8FAFC")`, recorded by its
fill colour. -/
def HEADER_FILL : String := "F8FAFC"

/-- An `openpyxl.styles.Font` restricted to the keyword arguments the code
passes (`bold`, `size`, `color`); assigning a font replaces the whole font. -/
structure FontSpec where
  bold : Bool := false
  size : Option Nat := none
  color : Option String := none
deriving DecidableEq, Repr

/-- The state of one worksheet cell. -/
structure CellState where
  value : Option Val := none
  font : Option FontSpec := none
  fill : Option String := none
  border : Option BorderSpec := none
  vertAlign : Option String := none
  numberFormat : Option String := none
deriving DecidableEq, Repr

/-- An `openpyxl.chart.Reference` (worksheet-relative cell rectangle). -/
structure ChartRef where
  minCol : Int
  minRow : Int
  maxCol : Int
  maxRow : Int
deriving DecidableEq, Repr

/-- An `openpyxl.chart.BarChart` as configured by `write_chart`, together
with the anchor it is added at. -/
structure ChartObj where
  title : String
  data : ChartRef
  categories : ChartRef
  titlesFromData : Bool
  anchor : String
deriving DecidableEq, Repr

/-- The page-setup facts `set_page_setup` writes (`None` = untouched). -/
structure PageSetupState where
  paperSize : Option Nat := none
  orientation : Option String := none
  marginTop : Option Rat := none
  marginBottom : Option Rat := none
  marginLeft : Option Rat := none
  marginRight : Option Rat := none
deriving DecidableEq, Repr

/-- A worksheet: total cell map plus merge / chart / width / page state. -/
structure Ws where
  cells : Int → Int → CellState
  merges : List (Int × Int × Int × Int) := []
  charts : List ChartObj := []
  colWidths : List (String × Rat) := []
  pageSetup : PageSetupState := {}

/-- The blank worksheet produced by `wb.create_sheet`. -/
def emptyWs : Ws := { cells := fun _ _ => {} }

/-- Pure part of a cell write: update the cell map at one coordinate. -/
def setCell (ws : Ws) (r c : Int) (f : CellState → CellState) : Ws :=
  { ws with cells := fun r' c' =>
      if r' = r ∧ c' = c then f (ws.cells r' c') else ws.cells r' c' }

/-- `ws.cell(row=r, column=c)` followed by attribute assignments `f`.
`openpyxl` raises `ValueError("Row or column values must be at least 1")`
when `r < 1` or `c < 1`. -/
def wcell (ws : Ws) (r c : Int) (f : CellState → CellState) : Except String Ws :=
  if 1 ≤ r ∧ 1 ≤ c then .ok (setCell ws r c f)
  else .error "Row or column values must be at least 1"

/-- Python `s or d` for an optional string field: missing and `""` both
give the default. -/
def strOr (o : Option String) (d : String) : String :=
  match o with
  | none => d
  | some s => if s = "" then d else s

/-- Python `v or d` for an optional scalar field. -/
def valOr (o : Option Val) (d : Val) : Val :=
  match o with
  | none => d
  | some v => if v.falsy then d else v

/-- Python string slicing `s[:n]` (by code points). -/
def pyTake (s : String) (n : Nat) : String := ⟨s.data.take n⟩

/-- Python `str.lower()` over the code points (ASCII case mapping; the
values the code compares — paper sizes, orientations, column names — are
ASCII). -/
def pyLower (s : String) : String := ⟨s.data.map Char.toLower⟩

/-- Accumulator loop of `openpyxl.utils.get_column_letter`: while the
index is positive, take `divmod(col_idx - 1, 26)` and prepend the letter
for the remainder.  The first argument is structural-recursion fuel; the
index strictly decreases each step, so fuel equal to the initial index is
always enough. -/
def colLetterLoop : Nat → Nat → List Char → List Char
  | 0, _, acc => acc
  | fuel + 1, n, acc =>
    if n = 0 then acc
    else colLetterLoop fuel ((n - 1) / 26) (Char.ofNat (65 + (n - 1) % 26) :: acc)

/-- `openpyxl.utils.get_column_letter` on an in-range index. -/
def get_column_letter (n : Nat) : String := ⟨colLetterLoop n n []⟩

/-- `get_column_letter` including its `1 <= col_idx <= 18278` bound check
(`ValueError` otherwise). -/
def colLetterE (n : Int) : Except String String :=
  if 1 ≤ n ∧ n ≤ 18278 then .ok (get_column_letter n.toNat)
  else .error "Invalid column index"

/-- Python `round(q, 1)` on the (exact, non-tie) quantities the code
produces: round `q*10` to the nearest integer and divide by 10.  (Python
uses banker's rounding at exact ties; the only inputs the code feeds in,
`100/7.2` and `80/7.2`, are not ties, so the distinction is immaterial.) -/
def round1 (q : Rat) : Rat := ((round (q * 10) : Int) : Rat) / 10

/-- `px_to_col_width` (src/app.py lines 25–27):
`max(3, round(px / 7.2, 1))`. -/
def px_to_col_width (px : Rat) : Rat := max 3 (round1 (px / (36 / 5)))

/-- Margin sub-dict of the page settings (`margin.get(side, 40)`). -/
structure MarginCfg where
  top : Option Rat := none
  bottom : Option Rat := none
  left : Option Rat := none
  right : Option Rat := none
deriving DecidableEq, Repr

/-- Page sub-dict of the settings. -/
structure PageCfg where
  size : Option String := none
  orientation : Option String := none
  margin : Option MarginCfg := none
deriving DecidableEq, Repr

/-- The request `settings` dict (only the `page` key is read). -/
structure SettingsCfg where
  page : Option PageCfg := none
deriving DecidableEq, Repr

/-- `px_to_in` (src/app.py line 151): `float(px)/96.0`. -/
def px_to_in (px : Rat) : Rat := px / 96

/-- `set_page_setup` (src/app.py lines 139–155). -/
def set_page_setup (ws : Ws) (settings : SettingsCfg) : Ws :=
  let page := settings.page.getD {}
  let size := pyLower (strOr page.size "Letter")
  let orient := pyLower (strOr page.orientation "portrait")
  let paper :=
    if size = "letter" then 1 else if size = "legal" then 5
    else if size = "a4" then 9 else if size = "a3" then 8 else 1
  let margin := page.margin.getD {}
  { ws with pageSetup :=
      { paperSize := some paper
        orientation := some (if orient = "portrait" then "portrait" else "landscape")
        marginTop := some (px_to_in (margin.top.getD 40))
        marginBottom := some (px_to_in (margin.bottom.getD 40))
        marginLeft := some (px_to_in (margin.left.getD 40))
        marginRight := some (px_to_in (margin.right.getD 40)) } }

/-- A widget dict.  `type`, `x`, `y`, `title` are common; the rest are the
type-specific keys each writer reads with `model.get(...)`. -/
structure Widget where
  type : Option String := none
  x : Option Int := none
  y : Option Int := none
  title : Option String := none
  columns : Option (List String) := none
  data : Option (List (List Val)) := none
  formats : Option (List (String × String)) := none
  cellFmt : Option (List (String × String)) := none
  sub : Option String := none
  value : Option Val := none
  chartType : Option String := none
deriving Repr

/-- The attribute assignments done on one header cell (lines 41–45). -/
def headerUpd (col : String) (cs : CellState) : CellState :=
  { cs with value := some (.s col), font := some { bold := true },
            fill := some HEADER_FILL, border := some BORDER_THIN,
            vertAlign := some "center" }

/-- The attribute assignments done on one data cell (lines 53–55). -/
def dataUpd (val : Val) (cs : CellState) : CellState :=
  { cs with value := some val, border := some BORDER_THIN,
            vertAlign := some "top" }

/-- `cell.number_format = fmt`. -/
def fmtUpd (fmt : String) (cs : CellState) : CellState :=
  { cs with numberFormat := some fmt }

/-- `cell.border = BORDER_THIN`. -/
def borderUpd (cs : CellState) : CellState :=
  { cs with border := some BORDER_THIN }

/-- Header loop of `write_table` (lines 40–45): `enumerate(cols, start=
start_col)` visits column `start_col + k` for the `k`-th name. -/
def writeHeaderCells : Ws → Int → Int → Nat → List String → Except String Ws
  | ws, _, _, _, [] => .ok ws
  | ws, r, sc, k, col :: rest => do
    let ws ← wcell ws r (sc + (k : Int)) (headerUpd col)
    writeHeaderCells ws r sc (k + 1) rest

/-- Inner data loop (lines 50–55): for the `idx`-th column name, write
`row[idx] if idx < len(row) else ""` at column `start_col + idx`
(`idx = j - start_col` in the source). -/
def writeRowCells : Ws → Int → Int → Nat → List Val → List String → Except String Ws
  | ws, _, _, _, _, [] => .ok ws
  | ws, r, sc, idx, row, _ :: rest => do
    let val := if h : idx < row.length then row.get ⟨idx, h⟩ else Val.s ""
    let ws ← wcell ws r (sc + (idx : Int)) (dataUpd val)
    writeRowCells ws r sc (idx + 1) row rest

/-- Outer data loop (lines 49–56); returns the final value of `r`. -/
def writeDataRows : Ws → Int → Int → List String → List (List Val) → Except String (Ws × Int)
  | ws, r, _, _, [] => .ok (ws, r)
  | ws, r, sc, cols, row :: rest => do
    let ws ← writeRowCells ws r sc 0 row cols
    writeDataRows ws (r + 1) sc cols rest

/-- Column-width loop (lines 59–61): a narrower default for the named
money-ish columns, keyed by `get_column_letter(j)` (which bound-checks). -/
def setWidthCells : Ws → Int → Nat → List String → Except String Ws
  | ws, _, _, [] => .ok ws
  | ws, sc, k, col :: rest => do
    let width := px_to_col_width
      (if pyLower col ∈ ["amount", "total", "value", "price", "cost"] then 80 else 100)
    let letter ← colLetterE (sc + (k : Int))
    setWidthCells { ws with colWidths := ws.colWidths ++ [(letter, width)] } sc (k + 1) rest

/-- `for rr in range(a, a+n): ws.cell(row=rr, column=j).number_format = fmt`. -/
def setFmtRange : Ws → Int → Nat → Int → String → Except String Ws
  | ws, _, 0, _, _ => .ok ws
  | ws, a, n + 1, j, fmt => do
    let ws ← wcell ws a j (fmtUpd fmt)
    setFmtRange ws (a + 1) n j fmt

/-- Body of the column-format loop (lines 65–76): when the format name is
a column, set the number format on data rows `start_row+1 .. r-1` of
column `start_col + cols.index(name)`; unrecognised codes do nothing. -/
def colFmtStep (ws : Ws) (sr sc rEnd : Int) (cols : List String) (name code : String) :
    Except String Ws :=
  if name ∈ cols then
    let j := sc + (cols.indexOf name : Int)
    if code = "currency" then setFmtRange ws (sr + 1) (rEnd - (sr + 1)).toNat j "\"$\"#,##0.00"
    else if code = "number2" then setFmtRange ws (sr + 1) (rEnd - (sr + 1)).toNat j "#,##0.00"
    else if code = "date" then setFmtRange ws (sr + 1) (rEnd - (sr + 1)).toNat j "mm/dd/yyyy"
    else pure ws
  else pure ws

/-- Column-format pass (lines 64–76), iterating `formats.items()` in
order. -/
def applyColFormats : Ws → Int → Int → Int → List String → List (String × String) → Except String Ws
  | ws, _, _, _, _, [] => .ok ws
  | ws, sr, sc, rEnd, cols, (name, code) :: rest => do
    let ws ← colFmtStep ws sr sc rEnd cols name code
    applyColFormats ws sr sc rEnd cols rest

/-- Python `str.split(sep)` for a one-character separator, over the code
points: `"".split -> [""]`, empty fields kept. -/
def splitOnChar (sep : Char) : List Char → List (List Char)
  | [] => [[]]
  | ch :: rest =>
    if ch = sep then [] :: splitOnChar sep rest
    else
      match splitOnChar sep rest with
      | [] => [[ch]]
      | g :: gs => (ch :: g) :: gs

/-- Decimal digit accumulator of `int(...)`. -/
def parseNatAux : List Char → Nat → Option Nat
  | [], acc => some acc
  | ch :: rest, acc =>
    if '0' ≤ ch ∧ ch ≤ '9' then parseNatAux rest (acc * 10 + (ch.toNat - 48))
    else none

/-- Python `int(str)`: an optional sign followed by at least one decimal
digit.  (The whitespace and underscore tolerance of `int()` is not
modelled; the claims only involve plain digit pairs.) -/
def parseIntChars : List Char → Option Int
  | [] => none
  | '-' :: rest =>
    if rest.isEmpty then none else (parseNatAux rest 0).map (fun n => -(n : Int))
  | '+' :: rest =>
    if rest.isEmpty then none else (parseNatAux rest 0).map (fun n => (n : Int))
  | cs => (parseNatAux cs 0).map (fun n => (n : Int))

/-- `rr, cc = key.split(","); int(rr), int(cc)` with the surrounding
`try/except` (any parse failure skips the entry). -/
def parseKey (key : String) : Option (Int × Int) :=
  match splitOnChar ',' key.data with
  | [a, b] =>
    match parseIntChars a, parseIntChars b with
    | some r, some c => some (r, c)
    | _, _ => none
  | _ => none

/-- Per-cell override format dispatch (lines 88–93): the format is
assigned when the code is recognised, otherwise the cell is untouched. -/
def cellFmtUpd (code : String) (cs : CellState) : CellState :=
  if code = "currency" then fmtUpd "\"$\"#,##0.00" cs
  else if code = "number2" then fmtUpd "#,##0.00" cs
  else if code = "date" then fmtUpd "mm/dd/yyyy" cs
  else cs

/-- Per-cell override pass (lines 79–94): the target cell is fetched as
`ws.cell(row = start_row + r, column = start_col + c - 1)` (this access is
outside the `try`, so an out-of-range coordinate raises), then the format
is assigned when the code is recognised. -/
def applyCellFmt : Ws → Int → Int → List (String × String) → Except String Ws
  | ws, _, _, [] => .ok ws
  | ws, sr, sc, (key, code) :: rest => do
    let ws ←
      match parseKey key with
      | none => pure ws
      | some (r, c) => wcell ws (sr + r) (sc + c - 1) (cellFmtUpd code)
    applyCellFmt ws sr sc rest

/-- `write_table` (src/app.py lines 29–98). -/
def write_table (ws : Ws) (start_row start_col : Int) (model : Widget) :
    Except String (Ws × Int × Int) := do
  let cols := model.columns.getD []
  let data := model.data.getD []
  let formats := model.formats.getD []
  let cell_fmt := model.cellFmt.getD []
  let ws ← writeHeaderCells ws start_row start_col 0 cols
  let (ws, r) ← writeDataRows ws (start_row + 1) start_col cols data
  let ws ← setWidthCells ws start_col 0 cols
  let ws ← applyColFormats ws start_row start_col r cols formats
  let ws ← applyCellFmt ws start_row start_col cell_fmt
  pure (ws, r - 1, start_col + (cols.length : Int) - 1)

/-- `ws.merge_cells(start_row=sr, start_column=sc, end_row=er,
end_column=ec)`: record the merged range.  (The library also demotes the
non-top-left cells of the range to `MergedCell`; no claim depends on
that, and the code only merges ranges whose only populated cell is the
top-left one.) -/
def mergeCells (ws : Ws) (sr sc er ec : Int) : Ws :=
  { ws with merges := ws.merges ++ [(sr, sc, er, ec)] }

/-- One row of the KPI border loop (line 113): columns `c .. c+nc-1`. -/
def borderRowCells : Ws → Int → Int → Nat → Except String Ws
  | ws, _, _, 0 => .ok ws
  | ws, r, c, nc + 1 => do
    let ws ← wcell ws r c borderUpd
    borderRowCells ws r (c + 1) nc

/-- KPI border loop (lines 112–114): rows `r .. r+nr-1`, 4 columns each. -/
def borderBlockCells : Ws → Int → Int → Nat → Except String Ws
  | ws, _, _, 0 => .ok ws
  | ws, r, c, nr + 1 => do
    let ws ← borderRowCells ws r c 4
    borderBlockCells ws (r + 1) c nr

/-- `write_kpi` (src/app.py lines 100–116). -/
def write_kpi (ws : Ws) (start_row start_col : Int) (model : Widget) :
    Except String Ws := do
  let title := strOr model.title "KPI"
  let sub := strOr model.sub ""
  let value := valOr model.value (.n 0)
  let ws ← wcell ws start_row start_col (fun cs =>
    { cs with value := some (.s title), font := some { bold := true, size := some 12 } })
  let ws := mergeCells ws start_row start_col start_row (start_col + 3)
  let ws ← wcell ws (start_row + 1) start_col (fun cs =>
    { cs with value := some value, font := some { bold := true, size := some 18 } })
  let ws := mergeCells ws (start_row + 1) start_col (start_row + 2) (start_col + 3)
  let ws ← borderBlockCells ws start_row start_col 3
  let ws ← wcell ws (start_row + 3) start_col (fun cs =>
    { cs with value := some (.s sub), font := some { size := some 10, color := some "64748B" } })
  pure ws

/-- The fixed chart labels (line 122). -/
def chartLabels : List String := ["Jan", "Feb", "Mar", "Apr", "May", "Jun"]

/-- The fixed chart values (line 123). -/
def chartValues : List Int := [10, 22, 18, 30, 26, 35]

/-- Chart table loop (lines 125–129), iterating `i` over the zipped
label/value lists. -/
def writeChartRows : Ws → Int → Int → Int → List (String × Int) → Except String Ws
  | ws, _, _, _, [] => .ok ws
  | ws, sr, sc, i, (lab, v) :: rest => do
    let ws ← wcell ws (sr + 1 + i) sc (fun cs => { cs with value := some (.s lab) })
    let ws ← wcell ws (sr + 1 + i) (sc + 1) (fun cs =>
      { cs with value := some (.n v), numberFormat := some "#,##0" })
    let ws ← wcell ws (sr + 1 + i) sc borderUpd
    let ws ← wcell ws (sr + 1 + i) (sc + 1) borderUpd
    writeChartRows ws sr sc (i + 1) rest

/-- `write_chart` (src/app.py lines 118–137).  `chartType` is read into a
local that is never used (the chart is always a `BarChart`). -/
def write_chart (ws : Ws) (start_row start_col : Int) (model : Widget) :
    Except String Ws := do
  let title := strOr model.title "Chart"
  let _ctype := strOr model.chartType "bar"
  let ws ← wcell ws start_row start_col (fun cs =>
    { cs with value := some (.s title), font := some { bold := true } })
  let ws ← writeChartRows ws start_row start_col 0 (chartLabels.zip chartValues)
  let anchorCol ← colLetterE (start_col + 3)
  pure { ws with charts := ws.charts ++
    [{ title := title
       data := ⟨start_col + 1, start_row, start_col + 1, start_row + (chartLabels.length : Int)⟩
       categories := ⟨start_col, start_row + 1, start_col, start_row + (chartLabels.length : Int)⟩
       titlesFromData := true
       anchor := anchorCol ++ toString start_row }] }

/-- One sheet dict of the payload. -/
structure SheetCfg where
  name : Option String := none
  widgets : Option (List Widget) := none
deriving Repr

/-- The request body (`CompilePayload` in src/app.py lines 158–161). -/
structure CompilePayload where
  project : String
  sheets : List SheetCfg
  settings : SettingsCfg
deriving Repr

/-- Widget dispatch inside `compile_workbook` (lines 176–190): a table
gets a bold title one row ABOVE its origin, then `write_table`; kpi and
chart dispatch to their writers; anything else becomes a bordered label. -/
def processWidget (ws : Ws) (w : Widget) : Except String Ws :=
  let x := w.x.getD 1
  let y := w.y.getD 1
  match w.type with
  | some "table" => do
    let title := strOr w.title "Table"
    let ws ← wcell ws (y - 1) x (fun cs =>
      { cs with value := some (.s title), font := some { bold := true } })
    let (ws, _, _) ← write_table ws y x w
    pure ws
  | some "kpi" => write_kpi ws y x w
  | some "chart" => write_chart ws y x w
  | _ => wcell ws y x (fun cs =>
    { cs with value := some (.s (strOr w.title "Button")), border := some BORDER_THIN })

/-- The widget loop of one sheet. -/
def processWidgets : Ws → List Widget → Except String Ws
  | ws, [] => .ok ws
  | ws, w :: rest => do
    let ws ← processWidget ws w
    processWidgets ws rest

/-- One iteration of the sheet loop (lines 170–194): create the sheet
with the truncated title, apply page setup, render the widgets.  (The
library-side duplicate-title renaming and invalid-character validation in
`create_sheet` are outside this repository and are not modelled; the
title recorded is exactly the string the code passes.) -/
def processSheet (settings : SettingsCfg) (sidx : Nat) (sheet : SheetCfg) :
    Except String (String × Ws) := do
  let title := pyTake (sheet.name.getD ("Sheet" ++ toString (sidx + 1))) 31
  let ws := set_page_setup emptyWs settings
  let ws ← processWidgets ws (sheet.widgets.getD [])
  pure (title, ws)

/-- The sheet loop, carrying the `enumerate` index. -/
def processSheets (settings : SettingsCfg) : Nat → List SheetCfg → Except String (List (String × Ws))
  | _, [] => .ok []
  | sidx, sheet :: rest => do
    let ts ← processSheet settings sidx sheet
    let others ← processSheets settings (sidx + 1) rest
    pure (ts :: others)

/-- The workbook assembled by `compile_workbook` before serialization. -/
structure Workbook where
  sheets : List (String × Ws)

/-- `compile_workbook` (src/app.py lines 164–201) up to serialization:
the default sheet is removed, then one sheet is appended per payload
sheet, in order. -/
def compile_workbook (payload : CompilePayload) : Except String Workbook := do
  let sheets ← processSheets payload.settings 0 payload.sheets
  pure { sheets := sheets }

/-- Modelled from the spec: `wb.save` (library code, not in this
repository) serializes the workbook together with internal metadata such
as timestamps; the timestamp metadata is the only part of the output that
depends on anything other than the workbook.  It is modelled as the pair
of the workbook and the ambient time. -/
def saveBytes (wb : Workbook) (now : Nat) : Workbook × Nat := (wb, now)

/-- The HTTP response assembled at src/app.py lines 196–201. -/
structure HttpResponse where
  body : Workbook
  timestampMeta : Nat
  mediaType : String
  contentDisposition : String

/-- The whole request handler: compile, serialize at the ambient time
`now`, attach the download headers. -/
def handle_compile (payload : CompilePayload) (now : Nat) : Except String HttpResponse := do
  let wb ← compile_workbook payload
  let (body, ts) := saveBytes wb now
  pure { body := body
         timestampMeta := ts
         mediaType := "application/vnd.openxmlformats-officedocument.spreadsheetml.sheet"
         contentDisposition := "attachment; filename=\"" ++ payload.project.replace " " "_" ++ ".xlsx\"" }

/-! ## Basic lemmas about single-cell writes -/

theorem wcell_ok (ws : Ws) (r c : Int) (f : CellState → CellState)
    (hr : 1 ≤ r) (hc : 1 ≤ c) : wcell ws r c f = .ok (setCell ws r c f) := by
  simp [wcell, hr, hc]

theorem setCell_cells_at (ws : Ws) (r c : Int) (f : CellState → CellState) :
    (setCell ws r c f).cells r c = f (ws.cells r c) := by
  simp [setCell]

theorem setCell_cells_ne (ws : Ws) (r c : Int) (f : CellState → CellState)
    {r' c' : Int} (h : ¬(r' = r ∧ c' = c)) :
    (setCell ws r c f).cells r' c' = ws.cells r' c' := by
  simp [setCell, h]

theorem setCell_merges (ws : Ws) (r c : Int) (f : CellState → CellState) :
    (setCell ws r c f).merges = ws.merges := rfl

theorem setCell_charts (ws : Ws) (r c : Int) (f : CellState → CellState) :
    (setCell ws r c f).charts = ws.charts := rfl

theorem setCell_colWidths (ws : Ws) (r c : Int) (f : CellState → CellState) :
    (setCell ws r c f).colWidths = ws.colWidths := rfl

theorem setCell_pageSetup (ws : Ws) (r c : Int) (f : CellState → CellState) :
    (setCell ws r c f).pageSetup = ws.pageSetup := rfl

theorem ok_bind {α β : Type} (a : α) (f : α → Except String β) :
    (Except.ok a >>= f) = f a := rfl

/-! ## Characterization of the header loop -/

theorem writeHeaderCells_spec (cols : List String) :
    ∀ (ws : Ws) (r sc : Int) (k : Nat), 1 ≤ r → 1 ≤ sc + (k : Int) →
    ∃ ws2, writeHeaderCells ws r sc k cols = .ok ws2 ∧
      (∀ (i : Nat) (col : String), cols.get? i = some col →
        ws2.cells r (sc + (k : Int) + (i : Int)) =
          headerUpd col (ws.cells r (sc + (k : Int) + (i : Int)))) ∧
      (∀ r' c' : Int, (r' ≠ r ∨ c' < sc + (k : Int) ∨ sc + (k : Int) + (cols.length : Int) ≤ c') →
        ws2.cells r' c' = ws.cells r' c') ∧
      ws2.merges = ws.merges ∧ ws2.charts = ws.charts ∧
      ws2.colWidths = ws.colWidths ∧ ws2.pageSetup = ws.pageSetup := by
  induction cols with
  | nil =>
    intro ws r sc k _ _
    exact ⟨ws, rfl, by simp, fun _ _ _ => rfl, rfl, rfl, rfl, rfl⟩
  | cons col rest ih =>
    intro ws r sc k hr hsck
    have hcell := wcell_ok ws r (sc + (k : Int)) (headerUpd col) hr hsck
    set ws1 := setCell ws r (sc + (k : Int)) (headerUpd col) with hws1
    obtain ⟨ws2, hrun, hat, hframe, hm, hch, hw, hp⟩ :=
      ih ws1 r sc (k + 1) hr (by push_cast; omega)
    refine ⟨ws2, ?_, ?_, ?_, ?_, ?_, ?_, ?_⟩
    · simp only [writeHeaderCells, hcell, ok_bind, hrun]
    · intro i c hc
      cases i with
      | zero =>
        rw [show sc + (k : Int) + ((0 : Nat) : Int) = sc + (k : Int) by push_cast; omega]
        rw [hframe r (sc + (k : Int)) (by right; left; push_cast; omega)]
        rw [hws1, setCell_cells_at]
        simp only [List.get?_cons_zero, Option.some_inj] at hc
        rw [hc]
      | succ i' =>
        simp only [List.get?_cons_succ] at hc
        have := hat i' c hc
        rw [show sc + (k : Int) + ((i' + 1 : Nat) : Int) = sc + ((k + 1 : Nat) : Int) + (i' : Int)
          by push_cast; omega]
        rw [this, hws1, setCell_cells_ne ws _ _ _ (by push_cast; omega)]
    · intro r' c' h
      rw [hframe r' c' (by simp only [List.length_cons] at h; push_cast at h ⊢; omega)]
      rw [hws1, setCell_cells_ne ws _ _ _
        (by simp only [List.length_cons] at h; push_cast at h ⊢; omega)]
    · rw [hm, hws1, setCell_merges]
    · rw [hch, hws1, setCell_charts]
    · rw [hw, hws1, setCell_colWidths]
    · rw [hp, hws1, setCell_pageSetup]

/-! ## Characterization of the data loops -/

theorem writeRowCells_spec (cols : List String) :
    ∀ (ws : Ws) (r sc : Int) (idx : Nat) (row : List Val), 1 ≤ r → 1 ≤ sc + (idx : Int) →
    ∃ ws2, writeRowCells ws r sc idx row cols = .ok ws2 ∧
      (∀ (i : Nat) (col : String), cols.get? i = some col →
        ws2.cells r (sc + (idx : Int) + (i : Int)) =
          dataUpd ((row.get? (idx + i)).getD (Val.s ""))
            (ws.cells r (sc + (idx : Int) + (i : Int)))) ∧
      (∀ r' c' : Int, (r' ≠ r ∨ c' < sc + (idx : Int) ∨ sc + (idx : Int) + (cols.length : Int) ≤ c') →
        ws2.cells r' c' = ws.cells r' c') ∧
      ws2.merges = ws.merges ∧ ws2.charts = ws.charts ∧
      ws2.colWidths = ws.colWidths ∧ ws2.pageSetup = ws.pageSetup := by
  induction cols with
  | nil =>
    intro ws r sc idx row _ _
    exact ⟨ws, rfl, by simp, fun _ _ _ => rfl, rfl, rfl, rfl, rfl⟩
  | cons col rest ih =>
    intro ws r sc idx row hr hsci
    have hval : (if h : idx < row.length then row.get ⟨idx, h⟩ else Val.s "") =
        (row.get? idx).getD (Val.s "") := by
      split
      · rw [List.get?_eq_get ‹_›]; rfl
      · rw [List.get?_eq_none.mpr (by omega)]; rfl
    have hcell := wcell_ok ws r (sc + (idx : Int))
      (dataUpd (if h : idx < row.length then row.get ⟨idx, h⟩ else Val.s "")) hr hsci
    set ws1 := setCell ws r (sc + (idx : Int))
      (dataUpd (if h : idx < row.length then row.get ⟨idx, h⟩ else Val.s "")) with hws1
    obtain ⟨ws2, hrun, hat, hframe, hm, hch, hw, hp⟩ :=
      ih ws1 r sc (idx + 1) row hr (by push_cast; omega)
    refine ⟨ws2, ?_, ?_, ?_, ?_, ?_, ?_, ?_⟩
    · simp only [writeRowCells, hcell, ok_bind, hrun]
    · intro i c hc
      cases i with
      | zero =>
        rw [show sc + (idx : Int) + ((0 : Nat) : Int) = sc + (idx : Int) by push_cast; omega]
        rw [hframe r (sc + (idx : Int)) (by right; left; push_cast; omega)]
        rw [hws1, setCell_cells_at, hval]
        rw [show idx + 0 = idx by omega]
      | succ i' =>
        simp only [List.get?_cons_succ] at hc
        have h2 := hat i' c hc
        rw [show sc + (idx : Int) + ((i' + 1 : Nat) : Int) = sc + ((idx + 1 : Nat) : Int) + (i' : Int)
          by push_cast; omega]
        rw [show idx + (i' + 1) = (idx + 1) + i' by omega]
        rw [h2, hws1, setCell_cells_ne ws _ _ _ (by push_cast; omega)]
    · intro r' c' h
      rw [hframe r' c' (by simp only [List.length_cons] at h; push_cast at h ⊢; omega)]
      rw [hws1, setCell_cells_ne ws _ _ _
        (by simp only [List.length_cons] at h; push_cast at h ⊢; omega)]
    · rw [hm, hws1, setCell_merges]
    · rw [hch, hws1, setCell_charts]
    · rw [hw, hws1, setCell_colWidths]
    · rw [hp, hws1, setCell_pageSetup]

theorem writeDataRows_spec (data : List (List Val)) :
    ∀ (ws : Ws) (r0 sc : Int) (cols : List String), 1 ≤ r0 → 1 ≤ sc →
    ∃ ws2, writeDataRows ws r0 sc cols data = .ok (ws2, r0 + (data.length : Int)) ∧
      (∀ (i : Nat) (row : List Val), data.get? i = some row →
        ∀ (k : Nat) (col : String), cols.get? k = some col →
          ws2.cells (r0 + (i : Int)) (sc + (k : Int)) =
            dataUpd ((row.get? k).getD (Val.s ""))
              (ws.cells (r0 + (i : Int)) (sc + (k : Int)))) ∧
      (∀ r' c' : Int,
        (r' < r0 ∨ r0 + (data.length : Int) ≤ r' ∨ c' < sc ∨ sc + (cols.length : Int) ≤ c') →
        ws2.cells r' c' = ws.cells r' c') ∧
      ws2.merges = ws.merges ∧ ws2.charts = ws.charts ∧
      ws2.colWidths = ws.colWidths ∧ ws2.pageSetup = ws.pageSetup := by
  induction data with
  | nil =>
    intro ws r0 sc cols _ _
    exact ⟨ws, by simp [writeDataRows], by simp, fun _ _ _ => rfl, rfl, rfl, rfl, rfl⟩
  | cons row rest ih =>
    intro ws r0 sc cols hr hc
    obtain ⟨ws1, hrun1, hat1, hframe1, hm1, hch1, hw1, hp1⟩ :=
      writeRowCells_spec cols ws r0 sc 0 row hr (by simpa using hc)
    obtain ⟨ws2, hrun2, hat2, hframe2, hm2, hch2, hw2, hp2⟩ :=
      ih ws1 (r0 + 1) sc cols (by omega) hc
    refine ⟨ws2, ?_, ?_, ?_, ?_, ?_, ?_, ?_⟩
    · simp only [writeDataRows, hrun1, ok_bind, hrun2, Except.ok.injEq, Prod.mk.injEq,
        List.length_cons]
      exact ⟨by trivial, by push_cast; ring⟩
    · intro i rw0 hi k c hk
      cases i with
      | zero =>
        simp only [List.get?_cons_zero, Option.some_inj] at hi
        subst hi
        rw [show r0 + ((0 : Nat) : Int) = r0 by push_cast; omega]
        rw [hframe2 r0 (sc + (k : Int)) (by left; omega)]
        have h3 := hat1 k c hk
        rw [show sc + ((0 : Nat) : Int) + (k : Int) = sc + (k : Int) by push_cast; omega] at h3
        rw [show (0 : Nat) + k = k by omega] at h3
        exact h3
      | succ i' =>
        simp only [List.get?_cons_succ] at hi
        have h4 := hat2 i' rw0 hi k c hk
        rw [show r0 + ((i' + 1 : Nat) : Int) = r0 + 1 + (i' : Int) by push_cast; omega]
        rw [h4, hframe1 _ _ (by left; omega)]
    · intro r' c' h
      rw [hframe2 r' c' (by simp only [List.length_cons] at h; push_cast at h ⊢; omega)]
      rw [hframe1 r' c' (by simp only [List.length_cons] at h; push_cast at h ⊢; omega)]
    · rw [hm2, hm1]
    · rw [hch2, hch1]
    · rw [hw2, hw1]
    · rw [hp2, hp1]

/-! ## Characterization of the width loop -/

theorem setWidthCells_spec (cols : List String) :
    ∀ (ws : Ws) (sc : Int) (k : Nat), 1 ≤ sc + (k : Int) →
    sc + (k : Int) + (cols.length : Int) ≤ 18279 →
    ∃ ws2, setWidthCells ws sc k cols = .ok ws2 ∧ ws2.cells = ws.cells ∧
      ws2.merges = ws.merges ∧ ws2.charts = ws.charts ∧ ws2.pageSetup = ws.pageSetup := by
  induction cols with
  | nil =>
    intro ws sc k _ _
    exact ⟨ws, rfl, rfl, rfl, rfl, rfl⟩
  | cons col rest ih =>
    intro ws sc k h1 h2
    simp only [List.length_cons] at h2
    have hletter : colLetterE (sc + (k : Int)) = .ok (get_column_letter (sc + (k : Int)).toNat) := by
      unfold colLetterE
      rw [if_pos ⟨by omega, by push_cast at h2 ⊢; omega⟩]
    obtain ⟨ws2, hrun, hcells, hm, hch, hp⟩ :=
      ih { ws with colWidths := ws.colWidths ++
            [(get_column_letter (sc + (k : Int)).toNat,
              px_to_col_width (if pyLower col ∈ ["amount", "total", "value", "price", "cost"]
                then 80 else 100))] }
        sc (k + 1) (by push_cast; omega) (by push_cast at h2 ⊢; omega)
    exact ⟨ws2, by simp only [setWidthCells, hletter, ok_bind, hrun], hcells, hm, hch, hp⟩

/-! ## Characterization of the number-format passes -/

/-- The format string the code assigns for each recognised column or cell
format code (`none` for unrecognised codes, which are skipped). -/
def fmtOfCode (code : String) : Option String :=
  if code = "currency" then some "\"$\"#,##0.00"
  else if code = "number2" then some "#,##0.00"
  else if code = "date" then some "mm/dd/yyyy"
  else none

/-- Equality of all cell attributes except the number format: what the
format passes leave untouched. -/
def sameButFmt (a b : CellState) : Prop :=
  a.value = b.value ∧ a.font = b.font ∧ a.fill = b.fill ∧
  a.border = b.border ∧ a.vertAlign = b.vertAlign

theorem sameButFmt_refl (a : CellState) : sameButFmt a a :=
  ⟨rfl, rfl, rfl, rfl, rfl⟩

theorem sameButFmt_trans {a b c : CellState} (h1 : sameButFmt a b) (h2 : sameButFmt b c) :
    sameButFmt a c := by
  obtain ⟨u1, u2, u3, u4, u5⟩ := h1
  obtain ⟨v1, v2, v3, v4, v5⟩ := h2
  exact ⟨u1.trans v1, u2.trans v2, u3.trans v3, u4.trans v4, u5.trans v5⟩

theorem sameButFmt_fmtUpd (fmt : String) (a : CellState) :
    sameButFmt (fmtUpd fmt a) a :=
  ⟨rfl, rfl, rfl, rfl, rfl⟩

theorem setFmtRange_spec : ∀ (n : Nat) (ws : Ws) (a j : Int) (fmt : String),
    1 ≤ a → 1 ≤ j →
    ∃ ws2, setFmtRange ws a n j fmt = .ok ws2 ∧
      (∀ r' c' : Int, ws2.cells r' c' =
        if a ≤ r' ∧ r' < a + (n : Int) ∧ c' = j
        then fmtUpd fmt (ws.cells r' c') else ws.cells r' c') ∧
      ws2.merges = ws.merges ∧ ws2.charts = ws.charts ∧
      ws2.colWidths = ws.colWidths ∧ ws2.pageSetup = ws.pageSetup := by
  intro n
  induction n with
  | zero =>
    intro ws a j fmt _ _
    refine ⟨ws, rfl, ?_, rfl, rfl, rfl, rfl⟩
    intro r' c'
    rw [if_neg (by push_cast; omega)]
  | succ n ih =>
    intro ws a j fmt ha hj
    have hcell := wcell_ok ws a j (fmtUpd fmt) ha hj
    set ws1 := setCell ws a j (fmtUpd fmt) with hws1
    obtain ⟨ws2, hrun, hchar, hm, hch, hw, hp⟩ := ih ws1 (a + 1) j fmt (by omega) hj
    refine ⟨ws2, ?_, ?_, ?_, ?_, ?_, ?_⟩
    · simp only [setFmtRange, hcell, ok_bind, hrun]
    · intro r' c'
      rw [hchar r' c']
      by_cases h1 : a + 1 ≤ r' ∧ r' < a + 1 + (n : Int) ∧ c' = j
      · rw [if_pos h1, if_pos (by push_cast; omega)]
        rw [hws1, setCell_cells_ne ws _ _ _ (by omega)]
      · rw [if_neg h1, hws1]
        by_cases h2 : r' = a ∧ c' = j
        · obtain ⟨hr', hc'⟩ := h2
          subst hr'; subst hc'
          rw [setCell_cells_at, if_pos (by push_cast; omega)]
        · rw [setCell_cells_ne ws _ _ _ h2, if_neg (by push_cast; omega)]
    · rw [hm, hws1, setCell_merges]
    · rw [hch, hws1, setCell_charts]
    · rw [hw, hws1, setCell_colWidths]
    · rw [hp, hws1, setCell_pageSetup]

theorem colFmtStep_spec (ws : Ws) (sr sc rEnd : Int) (cols : List String) (name code : String)
    (hr : 1 ≤ sr) (hc : 1 ≤ sc) :
    ∃ ws1, colFmtStep ws sr sc rEnd cols name code = .ok ws1 ∧
      (∀ r' c' : Int, sameButFmt (ws1.cells r' c') (ws.cells r' c')) ∧
      (∀ r' c' : Int, (r' < sr + 1 ∨ rEnd ≤ r') → ws1.cells r' c' = ws.cells r' c') ∧
      (∀ j : Int, (name ∈ cols → sc + ((cols.indexOf name : Nat) : Int) ≠ j) →
        ∀ r' : Int, ws1.cells r' j = ws.cells r' j) ∧
      (name ∈ cols → ∀ fmt, fmtOfCode code = some fmt →
        ∀ t : Nat, (t : Int) < rEnd - (sr + 1) →
          (ws1.cells (sr + 1 + (t : Int)) (sc + ((cols.indexOf name : Nat) : Int))).numberFormat
            = some fmt) ∧
      ws1.merges = ws.merges ∧ ws1.charts = ws.charts ∧
      ws1.colWidths = ws.colWidths ∧ ws1.pageSetup = ws.pageSetup := by
  by_cases hmem : name ∈ cols
  · by_cases h1 : code = "currency"
    · subst h1
      obtain ⟨ws2, hrun, hchar, hm, hch, hw, hp⟩ := setFmtRange_spec (rEnd - (sr + 1)).toNat ws
        (sr + 1) (sc + ((cols.indexOf name : Nat) : Int)) "\"$\"#,##0.00" (by omega) (by omega)
      refine ⟨ws2, ?_, ?_, ?_, ?_, ?_, hm, hch, hw, hp⟩
      · simp only [colFmtStep, if_pos hmem, if_pos rfl, if_true, hrun]
      · intro r' c'
        rw [hchar]
        split
        · exact sameButFmt_fmtUpd _ _
        · exact sameButFmt_refl _
      · intro r' c' h
        rw [hchar, if_neg (by omega)]
      · intro j hj r'
        have := hj hmem
        rw [hchar, if_neg (by omega)]
      · intro _ fmt hfmt t ht
        simp only [fmtOfCode, if_pos rfl, if_true, Option.some_inj] at hfmt
        rw [hchar, if_pos ⟨by omega, by omega, rfl⟩]
        subst hfmt
        rfl
    · by_cases h2 : code = "number2"
      · subst h2
        obtain ⟨ws2, hrun, hchar, hm, hch, hw, hp⟩ := setFmtRange_spec (rEnd - (sr + 1)).toNat ws
          (sr + 1) (sc + ((cols.indexOf name : Nat) : Int)) "#,##0.00" (by omega) (by omega)
        refine ⟨ws2, ?_, ?_, ?_, ?_, ?_, hm, hch, hw, hp⟩
        · simp only [colFmtStep, if_pos hmem, if_neg h1, if_pos rfl, if_true, hrun]
        · intro r' c'
          rw [hchar]
          split
          · exact sameButFmt_fmtUpd _ _
          · exact sameButFmt_refl _
        · intro r' c' h
          rw [hchar, if_neg (by omega)]
        · intro j hj r'
          have := hj hmem
          rw [hchar, if_neg (by omega)]
        · intro _ fmt hfmt t ht
          simp only [fmtOfCode, if_neg h1, if_pos rfl, if_true, Option.some_inj] at hfmt
          rw [hchar, if_pos ⟨by omega, by omega, rfl⟩]
          subst hfmt
          rfl
      · by_cases h3 : code = "date"
        · subst h3
          obtain ⟨ws2, hrun, hchar, hm, hch, hw, hp⟩ := setFmtRange_spec (rEnd - (sr + 1)).toNat ws
            (sr + 1) (sc + ((cols.indexOf name : Nat) : Int)) "mm/dd/yyyy" (by omega) (by omega)
          refine ⟨ws2, ?_, ?_, ?_, ?_, ?_, hm, hch, hw, hp⟩
          · simp only [colFmtStep, if_pos hmem, if_neg h1, if_neg h2, if_pos rfl, if_true, hrun]
          · intro r' c'
            rw [hchar]
            split
            · exact sameButFmt_fmtUpd _ _
            · exact sameButFmt_refl _
          · intro r' c' h
            rw [hchar, if_neg (by omega)]
          · intro j hj r'
            have := hj hmem
            rw [hchar, if_neg (by omega)]
          · intro _ fmt hfmt t ht
            simp only [fmtOfCode, if_neg h1, if_neg h2, if_pos rfl, if_true, Option.some_inj] at hfmt
            rw [hchar, if_pos ⟨by omega, by omega, rfl⟩]
            subst hfmt
            rfl
        · refine ⟨ws, ?_, fun _ _ => sameButFmt_refl _, fun _ _ _ => rfl, fun _ _ _ => rfl,
            ?_, rfl, rfl, rfl, rfl⟩
          · simp only [colFmtStep, if_pos hmem, if_neg h1, if_neg h2, if_neg h3]
            rfl
          · intro _ fmt hfmt
            simp only [fmtOfCode, if_neg h1, if_neg h2, if_neg h3] at hfmt
            exact Option.noConfusion hfmt
  · refine ⟨ws, ?_, fun _ _ => sameButFmt_refl _, fun _ _ _ => rfl, fun _ _ _ => rfl,
      ?_, rfl, rfl, rfl, rfl⟩
    · simp only [colFmtStep, if_neg hmem]
      rfl
    · intro h
      exact absurd h hmem

theorem applyColFormats_spec (formats : List (String × String)) :
    ∀ (ws : Ws) (sr sc rEnd : Int) (cols : List String), 1 ≤ sr → 1 ≤ sc →
    ∃ ws2, applyColFormats ws sr sc rEnd cols formats = .ok ws2 ∧
      (∀ r' c' : Int, sameButFmt (ws2.cells r' c') (ws.cells r' c')) ∧
      (∀ r' c' : Int, (r' < sr + 1 ∨ rEnd ≤ r') → ws2.cells r' c' = ws.cells r' c') ∧
      (∀ j : Int, (∀ p ∈ formats, p.1 ∈ cols → sc + ((cols.indexOf p.1 : Nat) : Int) ≠ j) →
        ∀ r' : Int, ws2.cells r' j = ws.cells r' j) ∧
      ((formats.map Prod.fst).Nodup →
        ∀ name code fmt, (name, code) ∈ formats → name ∈ cols → fmtOfCode code = some fmt →
        ∀ t : Nat, (t : Int) < rEnd - (sr + 1) →
          (ws2.cells (sr + 1 + (t : Int)) (sc + ((cols.indexOf name : Nat) : Int))).numberFormat
            = some fmt) ∧
      ws2.merges = ws.merges ∧ ws2.charts = ws.charts ∧
      ws2.colWidths = ws.colWidths ∧ ws2.pageSetup = ws.pageSetup := by
  induction formats with
  | nil =>
    intro ws sr sc rEnd cols _ _
    exact ⟨ws, rfl, fun _ _ => sameButFmt_refl _, fun _ _ _ => rfl, fun _ _ _ => rfl,
      by simp, rfl, rfl, rfl, rfl⟩
  | cons e rest ih =>
    obtain ⟨hname, hcode⟩ := e
    intro ws sr sc rEnd cols hr hc
    obtain ⟨ws1, hrun1, hsame1, hrow1, hcol1, heff1, hm1, hch1, hw1, hp1⟩ :=
      colFmtStep_spec ws sr sc rEnd cols hname hcode hr hc
    obtain ⟨ws2, hrun2, hsame2, hrow2, hcol2, heff2, hm2, hch2, hw2, hp2⟩ :=
      ih ws1 sr sc rEnd cols hr hc
    refine ⟨ws2, ?_, ?_, ?_, ?_, ?_, ?_, ?_, ?_, ?_⟩
    · simp only [applyColFormats, hrun1, ok_bind, hrun2]
    · intro r' c'
      exact sameButFmt_trans (hsame2 r' c') (hsame1 r' c')
    · intro r' c' h
      rw [hrow2 r' c' h, hrow1 r' c' h]
    · intro j hj r'
      rw [hcol2 j (fun p hp hpmem => hj p (List.mem_cons_of_mem _ hp) hpmem)]
      rw [hcol1 j (fun hmem => hj (hname, hcode) (List.mem_cons_self _ _) hmem)]
    · intro hnd name code fmt hmemF hmemC hfmt t ht
      rw [List.map_cons, List.nodup_cons] at hnd
      rcases List.mem_cons.mp hmemF with heq | hmemR
      · rw [Prod.mk.injEq] at heq
        obtain ⟨hn, hcd⟩ := heq
        subst hn; subst hcd
        rw [hcol2 (sc + ((cols.indexOf name : Nat) : Int)) ?_ (sr + 1 + (t : Int))]
        · exact heff1 hmemC fmt hfmt t ht
        · intro p hp hpmem heqj
          have hidx : cols.indexOf p.1 = cols.indexOf name := by omega
          have hpn : p.1 = name := (List.indexOf_inj hpmem hmemC).mp hidx
          have hin : p.1 ∈ rest.map Prod.fst := List.mem_map_of_mem Prod.fst hp
          exact hnd.1 (hpn ▸ hin)
      · exact heff2 hnd.2 name code fmt hmemR hmemC hfmt t ht
    · rw [hm2, hm1]
    · rw [hch2, hch1]
    · rw [hw2, hw1]
    · rw [hp2, hp1]

theorem applyCellFmt_nil (ws : Ws) (sr sc : Int) : applyCellFmt ws sr sc [] = .ok ws := rfl

theorem applyCellFmt_single (ws : Ws) (sr sc : Int) (key code : String) (r c : Int)
    (hk : parseKey key = some (r, c)) (h1 : 1 ≤ sr + r) (h2 : 1 ≤ sc + c - 1) :
    applyCellFmt ws sr sc [(key, code)] =
      .ok (setCell ws (sr + r) (sc + c - 1) (cellFmtUpd code)) := by
  simp only [applyCellFmt, hk, wcell_ok ws (sr + r) (sc + c - 1) (cellFmtUpd code) h1 h2, ok_bind]

theorem cellFmtUpd_numberFormat (code fmt : String) (cs : CellState)
    (h : fmtOfCode code = some fmt) : (cellFmtUpd code cs).numberFormat = some fmt := by
  unfold fmtOfCode at h
  unfold cellFmtUpd
  split_ifs at h ⊢ <;> simp_all [fmtUpd]

/-! ## Master characterization of `write_table` up to the per-cell pass -/

theorem write_table_phases (ws : Ws) (sr sc : Int) (m : Widget)
    (hr : 1 ≤ sr) (hc : 1 ≤ sc)
    (hb : sc + ((m.columns.getD []).length : Int) ≤ 18279) :
    ∃ ws4,
      write_table ws sr sc m =
        (applyCellFmt ws4 sr sc (m.cellFmt.getD [])).map
          (fun w => (w, sr + 1 + ((m.data.getD []).length : Int) - 1,
            sc + ((m.columns.getD []).length : Int) - 1)) ∧
      (∀ (k : Nat) (col : String), (m.columns.getD []).get? k = some col →
        ws4.cells sr (sc + (k : Int)) = headerUpd col (ws.cells sr (sc + (k : Int)))) ∧
      (∀ (i : Nat) (row : List Val), (m.data.getD []).get? i = some row →
        ∀ (k : Nat) (col : String), (m.columns.getD []).get? k = some col →
          (ws4.cells (sr + 1 + (i : Int)) (sc + (k : Int))).value =
            some ((row.get? k).getD (Val.s "")) ∧
          (ws4.cells (sr + 1 + (i : Int)) (sc + (k : Int))).border = some BORDER_THIN ∧
          (ws4.cells (sr + 1 + (i : Int)) (sc + (k : Int))).vertAlign = some "top") ∧
      (((m.formats.getD []).map Prod.fst).Nodup →
        ∀ name code fmt, (name, code) ∈ m.formats.getD [] → name ∈ m.columns.getD [] →
          fmtOfCode code = some fmt →
          ∀ i : Nat, i < (m.data.getD []).length →
            (ws4.cells (sr + 1 + (i : Int))
              (sc + (((m.columns.getD []).indexOf name : Nat) : Int))).numberFormat = some fmt) ∧
      (∀ r' c' : Int, sc + ((m.columns.getD []).length : Int) ≤ c' →
        ws4.cells r' c' = ws.cells r' c') ∧
      (∀ r' c' : Int, r' < sr → ws4.cells r' c' = ws.cells r' c') ∧
      ws4.merges = ws.merges ∧ ws4.charts = ws.charts ∧ ws4.pageSetup = ws.pageSetup := by
  obtain ⟨ws1, hrun1, hat1, hframe1, hm1, hch1, hw1, hp1⟩ :=
    writeHeaderCells_spec (m.columns.getD []) ws sr sc 0 hr (by simpa using hc)
  obtain ⟨ws2, hrun2, hat2, hframe2, hm2, hch2, hw2, hp2⟩ :=
    writeDataRows_spec (m.data.getD []) ws1 (sr + 1) sc (m.columns.getD []) (by omega) hc
  obtain ⟨ws3, hrun3, hcells3, hm3, hch3, hp3⟩ :=
    setWidthCells_spec (m.columns.getD []) ws2 sc 0 (by simpa using hc) (by simpa using hb)
  obtain ⟨ws4, hrun4, hsame4, hrow4, hcol4, heff4, hm4, hch4, hw4, hp4⟩ :=
    applyColFormats_spec (m.formats.getD []) ws3 sr sc (sr + 1 + ((m.data.getD []).length : Int))
      (m.columns.getD []) hr hc
  refine ⟨ws4, ?_, ?_, ?_, ?_, ?_, ?_, ?_, ?_, ?_⟩
  · simp only [write_table, hrun1, ok_bind, hrun2, hrun3, hrun4]
    cases h5 : applyCellFmt ws4 sr sc (m.cellFmt.getD []) <;> simp [Except.map]
  · intro k col hk
    have h1 := hat1 k col hk
    simp only [Nat.cast_zero, add_zero] at h1
    rw [hrow4 sr (sc + (k : Int)) (by left; omega), hcells3,
      hframe2 sr (sc + (k : Int)) (by left; omega), h1]
  · intro i row hi k col hk
    obtain ⟨s1, s2, s3, s4, s5⟩ := hsame4 (sr + 1 + (i : Int)) (sc + (k : Int))
    have h2 := hat2 i row hi k col hk
    refine ⟨?_, ?_, ?_⟩
    · rw [s1, hcells3, h2]; rfl
    · rw [s4, hcells3, h2]; rfl
    · rw [s5, hcells3, h2]; rfl
  · intro hnd name code fmt hmf hmc hfmt i hi
    exact heff4 hnd name code fmt hmf hmc hfmt i (by omega)
  · intro r' c' hcge
    rw [hcol4 c' ?_ r', hcells3, hframe2 r' c' (by right; right; right; omega),
      hframe1 r' c' (by right; right; push_cast; omega)]
    intro p hp hpmem
    have := List.indexOf_lt_length.mpr hpmem
    omega
  · intro r' c' hlt
    rw [hrow4 r' c' (by omega), hcells3, hframe2 r' c' (by left; omega),
      hframe1 r' c' (by left; omega)]
  · rw [hm4, hm3, hm2, hm1]
  · rw [hch4, hch3, hch2, hch1]
  · rw [hp4, hp3, hp2, hp1]

/-! ## Claim theorems about `write_table` -/

/-- C1: for every table widget at grid position (x, y) (1-based
coordinates; the widths pass in `get_column_letter` range; no per-cell
overrides, which run later and could overwrite) with a non-empty columns
list, `write_table` succeeds, writes the column names as a bold, filled,
thin-bordered header row at row y starting at column x, writes each data
row's values in the following rows in order, and sets the number format of
every data cell in a column listed in `formats` to the configured code
(`fmtOfCode`: currency, number2 and date map to the three fixed format
strings). -/
theorem claim_C1_table_rendering (ws : Ws) (x y : Int) (m : Widget)
    (hx : 1 ≤ x) (hy : 1 ≤ y)
    (hb : x + ((m.columns.getD []).length : Int) ≤ 18279)
    (_hne : m.columns.getD [] ≠ [])
    (hcf : m.cellFmt.getD [] = [])
    (hnd : ((m.formats.getD []).map Prod.fst).Nodup) :
    ∃ wsF er ec, write_table ws y x m = .ok (wsF, er, ec) ∧
      (∀ (k : Nat) (col : String), (m.columns.getD []).get? k = some col →
        (wsF.cells y (x + (k : Int))).value = some (.s col) ∧
        (wsF.cells y (x + (k : Int))).font = some { bold := true } ∧
        (wsF.cells y (x + (k : Int))).fill = some HEADER_FILL ∧
        (wsF.cells y (x + (k : Int))).border = some BORDER_THIN) ∧
      (∀ (i : Nat) (row : List Val), (m.data.getD []).get? i = some row →
        ∀ (k : Nat) (col : String), (m.columns.getD []).get? k = some col →
          (wsF.cells (y + 1 + (i : Int)) (x + (k : Int))).value =
            some ((row.get? k).getD (Val.s ""))) ∧
      (∀ name code fmt, (name, code) ∈ m.formats.getD [] → name ∈ m.columns.getD [] →
        fmtOfCode code = some fmt →
        ∀ i : Nat, i < (m.data.getD []).length →
          (wsF.cells (y + 1 + (i : Int))
            (x + (((m.columns.getD []).indexOf name : Nat) : Int))).numberFormat = some fmt) := by
  obtain ⟨ws4, hrun, hhdr, hdata, hfmt, hframe, hup, hm, hch, hp⟩ :=
    write_table_phases ws y x m hy hx hb
  rw [hcf, applyCellFmt_nil] at hrun
  refine ⟨ws4, _, _, by simpa [Except.map] using hrun, ?_, ?_, ?_⟩
  · intro k col hk
    rw [hhdr k col hk]
    exact ⟨rfl, rfl, rfl, rfl⟩
  · intro i row hi k col hk
    exact (hdata i row hi k col hk).1
  · intro name code fmt hmf hmc hf i hi
    exact hfmt hnd name code fmt hmf hmc hf i hi

/-- The table widget of the C1 example: sheet "Report", columns Name and
Amount, one data row, currency format on Amount. -/
def wC1 : Widget :=
  { type := some "table", x := some 1, y := some 2,
    columns := some ["Name", "Amount"],
    data := some [[Val.s "Alice", Val.n 10]],
    formats := some [("Amount", "currency")] }

theorem claim_C1_witness :
    ∃ wsF er ec, write_table emptyWs 2 1 wC1 = .ok (wsF, er, ec) ∧
      (wsF.cells 2 1).value = some (.s "Name") ∧
      (wsF.cells 2 2).value = some (.s "Amount") ∧
      (wsF.cells 2 1).font = some { bold := true } ∧
      (wsF.cells 3 1).value = some (.s "Alice") ∧
      (wsF.cells 3 2).value = some (.n 10) ∧
      (wsF.cells 3 2).numberFormat = some "\"$\"#,##0.00" := by
  obtain ⟨wsF, er, ec, hrun, hhdr, hdata, hfmt⟩ :=
    claim_C1_table_rendering emptyWs 1 2 wC1 (by decide) (by decide) (by decide)
      (by decide) rfl (by decide)
  refine ⟨wsF, er, ec, hrun, ?_, ?_, ?_, ?_, ?_, ?_⟩
  · simpa using (hhdr 0 "Name" rfl).1
  · simpa using (hhdr 1 "Amount" rfl).1
  · simpa using (hhdr 0 "Name" rfl).2.1
  · simpa using hdata 0 [Val.s "Alice", Val.n 10] rfl 0 "Name" rfl
  · simpa using hdata 0 [Val.s "Alice", Val.n 10] rfl 1 "Amount" rfl
  · have h := hfmt "Amount" "currency" "\"$\"#,##0.00" (by decide) (by decide) rfl 0 (by decide)
    have e1 : (((wC1.columns.getD []).indexOf "Amount" : Nat) : Int) = 1 := by decide
    rw [e1] at h
    simpa using h

/-- C2: for every table widget at (x, y), a single-entry `cellFmt` whose
key parses as the pair (r, c) and whose code is recognised sets the number
format of the absolute cell at row y + r and column x + c - 1: the row
offset is added unchanged while the column offset is treated as 1-based,
unlike the column-format pass which targets column
x + cols.index(name). -/
theorem claim_C2_cellfmt_offsets (ws : Ws) (x y : Int) (m : Widget) (key code : String)
    (r c : Int) (fmt : String)
    (hx : 1 ≤ x) (hy : 1 ≤ y)
    (hb : x + ((m.columns.getD []).length : Int) ≤ 18279)
    (hcf : m.cellFmt.getD [] = [(key, code)])
    (hk : parseKey key = some (r, c))
    (hfmt : fmtOfCode code = some fmt)
    (h1 : 1 ≤ y + r) (h2 : 1 ≤ x + c - 1) :
    ∃ wsF er ec, write_table ws y x m = .ok (wsF, er, ec) ∧
      (wsF.cells (y + r) (x + c - 1)).numberFormat = some fmt := by
  obtain ⟨ws4, hrun, _, _, _, _, _, _, _, _⟩ := write_table_phases ws y x m hy hx hb
  rw [hcf, applyCellFmt_single ws4 y x key code r c hk h1 h2] at hrun
  refine ⟨_, _, _, by simpa [Except.map] using hrun, ?_⟩
  rw [setCell_cells_at]
  exact cellFmtUpd_numberFormat code fmt _ hfmt

/-- The C2 witness widget: one per-cell override with local offset (2, 3). -/
def wC2 : Widget :=
  { type := some "table", cellFmt := some [("2,3", "date")] }

theorem claim_C2_witness :
    ∃ wsF er ec, write_table emptyWs 1 1 wC2 = .ok (wsF, er, ec) ∧
      (wsF.cells 3 3).numberFormat = some "mm/dd/yyyy" := by
  obtain ⟨wsF, er, ec, hrun, hfmt⟩ :=
    claim_C2_cellfmt_offsets emptyWs 1 1 wC2 "2,3" "date" 2 3 "mm/dd/yyyy"
      (by decide) (by decide) (by decide) rfl (by decide) rfl (by decide) (by decide)
  exact ⟨wsF, er, ec, hrun, by simpa using hfmt⟩

/-- C10: table rendering is total over ragged data: whatever the shapes of
`columns` and `data` (no per-cell overrides, whose own coordinates can be
out of range), `write_table` succeeds; the cell written for data row i and
column index idx holds row[idx] when idx < len(row) and the empty string
otherwise; and cells in columns at or beyond x + len(columns) — in
particular any extra entries of a long data row — are never touched. -/
theorem claim_C10_ragged_total (ws : Ws) (x y : Int) (m : Widget)
    (hx : 1 ≤ x) (hy : 1 ≤ y)
    (hb : x + ((m.columns.getD []).length : Int) ≤ 18279)
    (hcf : m.cellFmt.getD [] = []) :
    ∃ wsF er ec, write_table ws y x m = .ok (wsF, er, ec) ∧
      (∀ (i : Nat) (row : List Val), (m.data.getD []).get? i = some row →
        ∀ (idx : Nat) (col : String), (m.columns.getD []).get? idx = some col →
          (wsF.cells (y + 1 + (i : Int)) (x + (idx : Int))).value =
            some (if h : idx < row.length then row.get ⟨idx, h⟩ else Val.s "")) ∧
      (∀ r' c' : Int, x + ((m.columns.getD []).length : Int) ≤ c' →
        wsF.cells r' c' = ws.cells r' c') := by
  obtain ⟨ws4, hrun, hhdr, hdata, hfmt, hframe, hup, hm, hch, hp⟩ :=
    write_table_phases ws y x m hy hx hb
  rw [hcf, applyCellFmt_nil] at hrun
  refine ⟨ws4, _, _, by simpa [Except.map] using hrun, ?_, hframe⟩
  intro i row hi idx col hidx
  rw [(hdata i row hi idx col hidx).1]
  congr 1
  split
  · rw [List.get?_eq_get ‹_›]
    rfl
  · rw [List.get?_eq_none.mpr (by omega)]
    rfl

/-- The C10 witness widget: ragged data (one row too short, one row too
long) against two columns. -/
def wC10 : Widget :=
  { type := some "table", columns := some ["A", "B"],
    data := some [[Val.n 1], [Val.n 2, Val.n 3, Val.n 4]] }

theorem claim_C10_witness :
    ∃ wsF er ec, write_table emptyWs 1 1 wC10 = .ok (wsF, er, ec) ∧
      (wsF.cells 2 1).value = some (.n 1) ∧
      (wsF.cells 2 2).value = some (.s "") ∧
      (wsF.cells 3 1).value = some (.n 2) ∧
      (wsF.cells 3 2).value = some (.n 3) ∧
      wsF.cells 2 3 = emptyWs.cells 2 3 ∧
      wsF.cells 3 3 = emptyWs.cells 3 3 := by
  obtain ⟨wsF, er, ec, hrun, hdata, hframe⟩ :=
    claim_C10_ragged_total emptyWs 1 1 wC10 (by decide) (by decide) (by decide) rfl
  refine ⟨wsF, er, ec, hrun, ?_, ?_, ?_, ?_, ?_, ?_⟩
  · simpa using hdata 0 [Val.n 1] rfl 0 "A" rfl
  · simpa using hdata 0 [Val.n 1] rfl 1 "B" rfl
  · simpa using hdata 1 [Val.n 2, Val.n 3, Val.n 4] rfl 0 "A" rfl
  · simpa using hdata 1 [Val.n 2, Val.n 3, Val.n 4] rfl 1 "B" rfl
  · exact hframe 2 3 (by decide)
  · exact hframe 3 3 (by decide)

/-! ## Characterization of `write_kpi` -/

theorem mergeCells_cells (ws : Ws) (sr sc er ec : Int) :
    (mergeCells ws sr sc er ec).cells = ws.cells := rfl

theorem mergeCells_merges (ws : Ws) (sr sc er ec : Int) :
    (mergeCells ws sr sc er ec).merges = ws.merges ++ [(sr, sc, er, ec)] := rfl

theorem pure_ok {α : Type} (a : α) : (pure a : Except String α) = .ok a := rfl

theorem borderRowCells_spec : ∀ (nc : Nat) (ws : Ws) (r c : Int), 1 ≤ r → 1 ≤ c →
    ∃ ws2, borderRowCells ws r c nc = .ok ws2 ∧
      (∀ r' c' : Int, ws2.cells r' c' =
        if r' = r ∧ c ≤ c' ∧ c' < c + (nc : Int)
        then borderUpd (ws.cells r' c') else ws.cells r' c') ∧
      ws2.merges = ws.merges ∧ ws2.charts = ws.charts ∧
      ws2.colWidths = ws.colWidths ∧ ws2.pageSetup = ws.pageSetup := by
  intro nc
  induction nc with
  | zero =>
    intro ws r c _ _
    refine ⟨ws, rfl, ?_, rfl, rfl, rfl, rfl⟩
    intro r' c'
    rw [if_neg (by push_cast; omega)]
  | succ nc ih =>
    intro ws r c hr hc
    have hcell := wcell_ok ws r c borderUpd hr hc
    set ws1 := setCell ws r c borderUpd with hws1
    obtain ⟨ws2, hrun, hchar, hm, hch, hw, hp⟩ := ih ws1 r (c + 1) hr (by omega)
    refine ⟨ws2, ?_, ?_, ?_, ?_, ?_, ?_⟩
    · simp only [borderRowCells, hcell, ok_bind, hrun]
    · intro r' c'
      rw [hchar r' c']
      by_cases h1 : r' = r ∧ c + 1 ≤ c' ∧ c' < c + 1 + (nc : Int)
      · rw [if_pos h1, if_pos (by push_cast; omega)]
        rw [hws1, setCell_cells_ne ws _ _ _ (by omega)]
      · rw [if_neg h1, hws1]
        by_cases h2 : r' = r ∧ c' = c
        · obtain ⟨hr', hc'⟩ := h2
          subst hr'; subst hc'
          rw [setCell_cells_at, if_pos (by push_cast; omega)]
        · rw [setCell_cells_ne ws _ _ _ h2, if_neg (by push_cast; omega)]
    · rw [hm, hws1, setCell_merges]
    · rw [hch, hws1, setCell_charts]
    · rw [hw, hws1, setCell_colWidths]
    · rw [hp, hws1, setCell_pageSetup]

theorem borderBlockCells_spec : ∀ (nr : Nat) (ws : Ws) (r c : Int), 1 ≤ r → 1 ≤ c →
    ∃ ws2, borderBlockCells ws r c nr = .ok ws2 ∧
      (∀ r' c' : Int, ws2.cells r' c' =
        if r ≤ r' ∧ r' < r + (nr : Int) ∧ c ≤ c' ∧ c' < c + 4
        then borderUpd (ws.cells r' c') else ws.cells r' c') ∧
      ws2.merges = ws.merges ∧ ws2.charts = ws.charts ∧
      ws2.colWidths = ws.colWidths ∧ ws2.pageSetup = ws.pageSetup := by
  intro nr
  induction nr with
  | zero =>
    intro ws r c _ _
    refine ⟨ws, rfl, ?_, rfl, rfl, rfl, rfl⟩
    intro r' c'
    rw [if_neg (by push_cast; omega)]
  | succ nr ih =>
    intro ws r c hr hc
    obtain ⟨ws1, hrun1, hchar1, hm1, hch1, hw1, hp1⟩ := borderRowCells_spec 4 ws r c hr hc
    obtain ⟨ws2, hrun2, hchar2, hm2, hch2, hw2, hp2⟩ := ih ws1 (r + 1) c (by omega) hc
    refine ⟨ws2, ?_, ?_, ?_, ?_, ?_, ?_⟩
    · simp only [borderBlockCells, hrun1, ok_bind, hrun2]
    · intro r' c'
      rw [hchar2 r' c']
      by_cases h1 : r + 1 ≤ r' ∧ r' < r + 1 + (nr : Int) ∧ c ≤ c' ∧ c' < c + 4
      · rw [if_pos h1, if_pos (by push_cast; omega)]
        rw [hchar1 r' c', if_neg (by omega)]
      · rw [if_neg h1, hchar1 r' c']
        by_cases h2 : r' = r ∧ c ≤ c' ∧ c' < c + ((4 : Nat) : Int)
        · rw [if_pos h2, if_pos (by push_cast at h2 ⊢; omega)]
        · rw [if_neg h2, if_neg (by push_cast at h2 ⊢; omega)]
    · rw [hm2, hm1]
    · rw [hch2, hch1]
    · rw [hw2, hw1]
    · rw [hp2, hp1]

/-- C3 (amended): for every kpi widget at (x, y), `write_kpi` merges the
title across 4 columns at row y, merges the value cell across exactly
4 columns and 2 rows starting one row below the widget's origin (at
(x, y+1), not at (x, y)), gives every cell of the 4-wide-by-3-tall block
rows y..y+2 a thin border, and writes the subtitle below the block at row
y + 3. -/
theorem claim_C3_kpi_layout (ws : Ws) (x y : Int) (m : Widget) (hx : 1 ≤ x) (hy : 1 ≤ y) :
    ∃ wsF, write_kpi ws y x m = .ok wsF ∧
      wsF.merges = ws.merges ++ [(y, x, y, x + 3), (y + 1, x, y + 2, x + 3)] ∧
      (∀ r' c' : Int, y ≤ r' → r' ≤ y + 2 → x ≤ c' → c' ≤ x + 3 →
        (wsF.cells r' c').border = some BORDER_THIN) ∧
      (wsF.cells y x).value = some (.s (strOr m.title "KPI")) ∧
      (wsF.cells (y + 1) x).value = some (valOr m.value (.n 0)) ∧
      (wsF.cells (y + 3) x).value = some (.s (strOr m.sub "")) := by
  have h1 := wcell_ok ws y x (fun cs =>
    { cs with value := some (.s (strOr m.title "KPI")),
              font := some { bold := true, size := some 12 } }) hy hx
  set ws1 := setCell ws y x (fun cs =>
    { cs with value := some (.s (strOr m.title "KPI")),
              font := some { bold := true, size := some 12 } }) with hws1
  have h2 := wcell_ok (mergeCells ws1 y x y (x + 3)) (y + 1) x (fun cs =>
    { cs with value := some (valOr m.value (.n 0)),
              font := some { bold := true, size := some 18 } }) (by omega) hx
  set ws2 := setCell (mergeCells ws1 y x y (x + 3)) (y + 1) x (fun cs =>
    { cs with value := some (valOr m.value (.n 0)),
              font := some { bold := true, size := some 18 } }) with hws2
  obtain ⟨ws3, hrun3, hchar3, hm3, hch3, hw3, hp3⟩ :=
    borderBlockCells_spec 3 (mergeCells ws2 (y + 1) x (y + 2) (x + 3)) y x hy hx
  have h4 := wcell_ok ws3 (y + 3) x (fun cs =>
    { cs with value := some (.s (strOr m.sub "")),
              font := some { size := some 10, color := some "64748B" } }) (by omega) hx
  refine ⟨setCell ws3 (y + 3) x (fun cs =>
    { cs with value := some (.s (strOr m.sub "")),
              font := some { size := some 10, color := some "64748B" } }), ?_, ?_, ?_, ?_, ?_, ?_⟩
  · simp only [write_kpi, h1, ok_bind, h2, hrun3, h4, pure_ok]
  · rw [setCell_merges, hm3, mergeCells_merges, hws2, setCell_merges,
      mergeCells_merges, hws1, setCell_merges, List.append_assoc]
    rfl
  · intro r' c' hr1 hr2 hc1 hc2
    rw [setCell_cells_ne ws3 _ _ _ (by omega), hchar3 r' c',
      if_pos (by push_cast; omega)]
    rfl
  · rw [setCell_cells_ne ws3 _ _ _ (by omega), hchar3 y x,
      if_pos (by push_cast; omega), mergeCells_cells, hws2,
      setCell_cells_ne _ _ _ _ (by omega), mergeCells_cells, hws1, setCell_cells_at]
    rfl
  · rw [setCell_cells_ne ws3 _ _ _ (by omega), hchar3 (y + 1) x,
      if_pos (by push_cast; omega), mergeCells_cells, hws2, setCell_cells_at]
    rfl
  · rw [setCell_cells_at]

/-- C3 counterexample input: a kpi widget with all fields defaulted. -/
def wC3 : Widget := { type := some "kpi" }

/-- C3 counterexample: for the kpi widget at (x, y) = (1, 1) the merge
list is exactly [(1,1,1,4), (2,1,3,4)]; the region claimed for the value
cell — 4 columns and 2 rows starting at the widget's (x, y), i.e.
(1,1,2,4) — is not merged: the value merge starts one row lower. -/
theorem claim_C3_counterexample :
    (write_kpi emptyWs 1 1 wC3).map (fun wsF => wsF.merges) =
      .ok [(1, 1, 1, 4), (2, 1, 3, 4)] ∧
    (write_kpi emptyWs 1 1 wC3).map (fun wsF => decide ((1, 1, 2, 4) ∈ wsF.merges)) =
      .ok false := by
  exact ⟨rfl, rfl⟩

theorem claim_C3_witness :
    ∃ wsF, write_kpi emptyWs 2 3 wC3 = .ok wsF ∧
      wsF.merges = [(2, 3, 2, 6), (3, 3, 4, 6)] ∧
      (wsF.cells 2 3).value = some (.s "KPI") ∧
      (wsF.cells 3 3).value = some (.n 0) ∧
      (wsF.cells 5 3).value = some (.s "") ∧
      (wsF.cells 4 6).border = some BORDER_THIN := by
  obtain ⟨wsF, hrun, hmerge, hborder, htitle, hvalue, hsub⟩ :=
    claim_C3_kpi_layout emptyWs 3 2 wC3 (by decide) (by decide)
  refine ⟨wsF, hrun, ?_, htitle, hvalue, hsub, ?_⟩
  · rw [hmerge]
    rfl
  · exact hborder 4 6 (by decide) (by decide) (by decide) (by decide)

/-! ## Characterization of `write_chart` -/

theorem writeChartRows_spec (pairs : List (String × Int)) :
    ∀ (ws : Ws) (sr sc i0 : Int), 1 ≤ sr + 1 + i0 → 1 ≤ sc → 0 ≤ i0 →
    ∃ ws2, writeChartRows ws sr sc i0 pairs = .ok ws2 ∧
      (∀ (t : Nat) (lab : String) (v : Int), pairs.get? t = some (lab, v) →
        (ws2.cells (sr + 1 + i0 + (t : Int)) sc).value = some (.s lab) ∧
        (ws2.cells (sr + 1 + i0 + (t : Int)) sc).border = some BORDER_THIN ∧
        (ws2.cells (sr + 1 + i0 + (t : Int)) (sc + 1)).value = some (.n v) ∧
        (ws2.cells (sr + 1 + i0 + (t : Int)) (sc + 1)).numberFormat = some "#,##0" ∧
        (ws2.cells (sr + 1 + i0 + (t : Int)) (sc + 1)).border = some BORDER_THIN) ∧
      (∀ r' c' : Int, (r' < sr + 1 + i0 ∨ sr + 1 + i0 + (pairs.length : Int) ≤ r') →
        ws2.cells r' c' = ws.cells r' c') ∧
      ws2.merges = ws.merges ∧ ws2.charts = ws.charts ∧
      ws2.colWidths = ws.colWidths ∧ ws2.pageSetup = ws.pageSetup := by
  induction pairs with
  | nil =>
    intro ws sr sc i0 _ _ _
    exact ⟨ws, rfl, by simp, fun _ _ _ => rfl, rfl, rfl, rfl, rfl⟩
  | cons p rest ih =>
    obtain ⟨lab, v⟩ := p
    intro ws sr sc i0 hrow hsc hi0
    have h1 := wcell_ok ws (sr + 1 + i0) sc (fun cs => { cs with value := some (.s lab) })
      hrow hsc
    set wsA := setCell ws (sr + 1 + i0) sc (fun cs => { cs with value := some (.s lab) })
      with hwsA
    have h2 := wcell_ok wsA (sr + 1 + i0) (sc + 1) (fun cs =>
      { cs with value := some (.n v), numberFormat := some "#,##0" }) hrow (by omega)
    set wsB := setCell wsA (sr + 1 + i0) (sc + 1) (fun cs =>
      { cs with value := some (.n v), numberFormat := some "#,##0" }) with hwsB
    have h3 := wcell_ok wsB (sr + 1 + i0) sc borderUpd hrow hsc
    set wsC := setCell wsB (sr + 1 + i0) sc borderUpd with hwsC
    have h4 := wcell_ok wsC (sr + 1 + i0) (sc + 1) borderUpd hrow (by omega)
    set wsD := setCell wsC (sr + 1 + i0) (sc + 1) borderUpd with hwsD
    obtain ⟨ws2, hrun, hat, hframe, hm, hch, hw, hp⟩ :=
      ih wsD sr sc (i0 + 1) (by omega) hsc (by omega)
    refine ⟨ws2, ?_, ?_, ?_, ?_, ?_, ?_, ?_⟩
    · simp only [writeChartRows, h1, ok_bind, h2, h3, h4, hrun]
    · intro t lab2 v2 ht
      cases t with
      | zero =>
        simp only [List.get?_cons_zero, Option.some_inj] at ht
        rw [Prod.mk.injEq] at ht
        obtain ⟨hl, hv⟩ := ht
        subst hl; subst hv
        simp only [Nat.cast_zero, add_zero]
        refine ⟨?_, ?_, ?_, ?_, ?_⟩
        · rw [hframe _ _ (by left; omega), hwsD, setCell_cells_ne _ _ _ _ (by omega),
            hwsC, setCell_cells_at, hwsB, setCell_cells_ne _ _ _ _ (by omega),
            hwsA, setCell_cells_at]
          rfl
        · rw [hframe _ _ (by left; omega), hwsD, setCell_cells_ne _ _ _ _ (by omega),
            hwsC, setCell_cells_at]
          rfl
        · rw [hframe _ _ (by left; omega), hwsD, setCell_cells_at, hwsC,
            setCell_cells_ne _ _ _ _ (by omega), hwsB, setCell_cells_at]
          rfl
        · rw [hframe _ _ (by left; omega), hwsD, setCell_cells_at, hwsC,
            setCell_cells_ne _ _ _ _ (by omega), hwsB, setCell_cells_at]
          rfl
        · rw [hframe _ _ (by left; omega), hwsD, setCell_cells_at]
          rfl
      | succ t2 =>
        simp only [List.get?_cons_succ] at ht
        have h5 := hat t2 lab2 v2 ht
        have heq : sr + 1 + i0 + ((t2 + 1 : Nat) : Int) = sr + 1 + (i0 + 1) + (t2 : Int) := by
          push_cast; ring
        rw [heq]
        exact h5
    · intro r' c' h
      simp only [List.length_cons] at h
      push_cast at h
      rw [hframe r' c' (by omega), hwsD, setCell_cells_ne _ _ _ _ (by omega),
        hwsC, setCell_cells_ne _ _ _ _ (by omega), hwsB, setCell_cells_ne _ _ _ _ (by omega),
        hwsA, setCell_cells_ne _ _ _ _ (by omega)]
    · rw [hm, hwsD, setCell_merges, hwsC, setCell_merges, hwsB, setCell_merges,
        hwsA, setCell_merges]
    · rw [hch, hwsD, setCell_charts, hwsC, setCell_charts, hwsB, setCell_charts,
        hwsA, setCell_charts]
    · rw [hw, hwsD, setCell_colWidths, hwsC, setCell_colWidths, hwsB, setCell_colWidths,
        hwsA, setCell_colWidths]
    · rw [hp, hwsD, setCell_pageSetup, hwsC, setCell_pageSetup, hwsB, setCell_pageSetup,
        hwsA, setCell_pageSetup]

/-- C4: for every chart widget at (x, y), regardless of any `data` field
in the payload, `write_chart` writes exactly the 6 fixed label rows
Jan..Jun with the fixed values [10, 22, 18, 30, 26, 35] below the title
row (and touches no row beyond them), and appends exactly one bar chart
object referencing that table; the result is literally independent of the
widget's `data` field. -/
theorem claim_C4_chart_fixed (ws : Ws) (x y : Int) (m : Widget)
    (hx : 1 ≤ x) (hy : 1 ≤ y) (hb : x + 3 ≤ 18278) :
    chartLabels = ["Jan", "Feb", "Mar", "Apr", "May", "Jun"] ∧
    chartValues = [10, 22, 18, 30, 26, 35] ∧
    ∃ wsF, write_chart ws y x m = .ok wsF ∧
      wsF.charts = ws.charts ++
        [{ title := strOr m.title "Chart"
           data := ⟨x + 1, y, x + 1, y + (chartLabels.length : Int)⟩
           categories := ⟨x, y + 1, x, y + (chartLabels.length : Int)⟩
           titlesFromData := true
           anchor := get_column_letter (x + 3).toNat ++ toString y }] ∧
      (∀ (t : Nat) (lab : String) (v : Int),
        (chartLabels.zip chartValues).get? t = some (lab, v) →
        (wsF.cells (y + 1 + (t : Int)) x).value = some (.s lab) ∧
        (wsF.cells (y + 1 + (t : Int)) (x + 1)).value = some (.n v) ∧
        (wsF.cells (y + 1 + (t : Int)) (x + 1)).numberFormat = some "#,##0") ∧
      (∀ r' c' : Int, y + 7 ≤ r' → wsF.cells r' c' = ws.cells r' c') ∧
      (∀ d, write_chart ws y x { m with data := d } = write_chart ws y x m) := by
  refine ⟨rfl, rfl, ?_⟩
  have h1 := wcell_ok ws y x (fun cs =>
    { cs with value := some (.s (strOr m.title "Chart")), font := some { bold := true } }) hy hx
  set ws1 := setCell ws y x (fun cs =>
    { cs with value := some (.s (strOr m.title "Chart")), font := some { bold := true } })
    with hws1
  obtain ⟨ws2, hrun2, hat2, hframe2, hm2, hch2, hw2, hp2⟩ :=
    writeChartRows_spec (chartLabels.zip chartValues) ws1 y x 0 (by omega) hx (by omega)
  have hletter : colLetterE (x + 3) = .ok (get_column_letter (x + 3).toNat) := by
    unfold colLetterE
    rw [if_pos ⟨by omega, by omega⟩]
  refine ⟨{ ws2 with charts := ws2.charts ++
      [{ title := strOr m.title "Chart"
         data := ⟨x + 1, y, x + 1, y + (chartLabels.length : Int)⟩
         categories := ⟨x, y + 1, x, y + (chartLabels.length : Int)⟩
         titlesFromData := true
         anchor := get_column_letter (x + 3).toNat ++ toString y }] }, ?_, ?_, ?_, ?_,
    fun d => rfl⟩
  · simp only [write_chart, h1, ok_bind, hrun2, hletter, pure_ok]
  · show ws2.charts ++ _ = ws.charts ++ _
    rw [hch2, hws1, setCell_charts]
  · intro t lab v ht
    have h5 := hat2 t lab v ht
    simp only [add_zero] at h5
    exact ⟨h5.1, h5.2.2.1, h5.2.2.2.1⟩
  · intro r' c' hge
    have hlen : ((chartLabels.zip chartValues).length : Int) = 6 := rfl
    rw [hframe2 r' c' (by omega), hws1, setCell_cells_ne _ _ _ _ (by omega)]

/-- The C4 witness widget: a chart widget that does supply chart data,
which the compiler ignores. -/
def wC4 : Widget :=
  { type := some "chart", data := some [[Val.n 99, Val.n 98]] }

theorem claim_C4_witness :
    ∃ wsF, write_chart emptyWs 1 1 wC4 = .ok wsF ∧
      wsF.charts = [{ title := "Chart"
                      data := ⟨2, 1, 2, 7⟩
                      categories := ⟨1, 2, 1, 7⟩
                      titlesFromData := true
                      anchor := "D1" }] ∧
      (wsF.cells 2 1).value = some (.s "Jan") ∧
      (wsF.cells 2 2).value = some (.n 10) ∧
      (wsF.cells 7 1).value = some (.s "Jun") ∧
      (wsF.cells 7 2).value = some (.n 35) ∧
      wsF.cells 8 1 = emptyWs.cells 8 1 ∧
      write_chart emptyWs 1 1 { wC4 with data := some [] } = write_chart emptyWs 1 1 wC4 := by
  obtain ⟨_, _, wsF, hrun, hcharts, hcells, hframe, hindep⟩ :=
    claim_C4_chart_fixed emptyWs 1 1 wC4 (by decide) (by decide) (by decide)
  refine ⟨wsF, hrun, ?_, ?_, ?_, ?_, ?_, ?_, ?_⟩
  · rw [hcharts]
    rfl
  · simpa using (hcells 0 "Jan" 10 rfl).1
  · simpa using (hcells 0 "Jan" 10 rfl).2.1
  · simpa using (hcells 5 "Jun" 35 rfl).1
  · simpa using (hcells 5 "Jun" 35 rfl).2.1
  · exact hframe 8 1 (by decide)
  · exact hindep (some [])

/-! ## Page setup: margins and paper size -/

theorem set_page_setup_paperSize (ws : Ws) (st : SettingsCfg) :
    (set_page_setup ws st).pageSetup.paperSize =
      some (if pyLower (strOr (st.page.getD {}).size "Letter") = "letter" then 1
        else if pyLower (strOr (st.page.getD {}).size "Letter") = "legal" then 5
        else if pyLower (strOr (st.page.getD {}).size "Letter") = "a4" then 9
        else if pyLower (strOr (st.page.getD {}).size "Letter") = "a3" then 8
        else 1) := rfl

theorem set_page_setup_orientation (ws : Ws) (st : SettingsCfg) :
    (set_page_setup ws st).pageSetup.orientation =
      some (if pyLower (strOr (st.page.getD {}).orientation "portrait") = "portrait"
        then "portrait" else "landscape") := rfl

/-- C7: each page margin side is converted from pixel units to inch units
by dividing by 96; a missing margin side defaults to 40 pixels (via
`margin.get(side, 40)`), and a margin of 96 pixels converts to exactly
1.0 inch. -/
theorem claim_C7_margins (ws : Ws) (st : SettingsCfg) :
    (set_page_setup ws st).pageSetup.marginTop =
      some ((((st.page.getD {}).margin.getD {}).top.getD 40) / 96) ∧
    (set_page_setup ws st).pageSetup.marginBottom =
      some ((((st.page.getD {}).margin.getD {}).bottom.getD 40) / 96) ∧
    (set_page_setup ws st).pageSetup.marginLeft =
      some ((((st.page.getD {}).margin.getD {}).left.getD 40) / 96) ∧
    (set_page_setup ws st).pageSetup.marginRight =
      some ((((st.page.getD {}).margin.getD {}).right.getD 40) / 96) ∧
    px_to_in 96 = 1 ∧
    (set_page_setup ws { page := none }).pageSetup.marginTop = some ((40 : Rat) / 96) :=
  ⟨rfl, rfl, rfl, rfl, by norm_num [px_to_in], rfl⟩

/-- C9 (amended): the paper size is looked up case-insensitively from the
fixed table {letter: 1, legal: 5, a4: 9, a3: 8}, any size not in the
table yields the letter id 1, and a missing size yields 1; the
orientation is portrait when the case-insensitive setting is "portrait"
and landscape for every other non-empty value, while a missing OR EMPTY
orientation string falls back to the "portrait" default (the code's `or`
fallback treats "" like a missing value, so "" yields portrait rather
than landscape as claimed). -/
theorem claim_C9_paper_orientation (ws : Ws) (st : SettingsCfg) :
    (∀ s, (st.page.getD {}).size = some s → pyLower s = "letter" →
      (set_page_setup ws st).pageSetup.paperSize = some 1) ∧
    (∀ s, (st.page.getD {}).size = some s → pyLower s = "legal" →
      (set_page_setup ws st).pageSetup.paperSize = some 5) ∧
    (∀ s, (st.page.getD {}).size = some s → pyLower s = "a4" →
      (set_page_setup ws st).pageSetup.paperSize = some 9) ∧
    (∀ s, (st.page.getD {}).size = some s → pyLower s = "a3" →
      (set_page_setup ws st).pageSetup.paperSize = some 8) ∧
    (∀ s, (st.page.getD {}).size = some s → pyLower s ≠ "letter" → pyLower s ≠ "legal" →
      pyLower s ≠ "a4" → pyLower s ≠ "a3" →
      (set_page_setup ws st).pageSetup.paperSize = some 1) ∧
    ((st.page.getD {}).size = none → (set_page_setup ws st).pageSetup.paperSize = some 1) ∧
    (∀ o, (st.page.getD {}).orientation = some o → pyLower o = "portrait" →
      (set_page_setup ws st).pageSetup.orientation = some "portrait") ∧
    (∀ o, (st.page.getD {}).orientation = some o → pyLower o ≠ "portrait" → o ≠ "" →
      (set_page_setup ws st).pageSetup.orientation = some "landscape") ∧
    ((st.page.getD {}).orientation = none →
      (set_page_setup ws st).pageSetup.orientation = some "portrait") ∧
    ((st.page.getD {}).orientation = some "" →
      (set_page_setup ws st).pageSetup.orientation = some "portrait") := by
  refine ⟨?_, ?_, ?_, ?_, ?_, ?_, ?_, ?_, ?_, ?_⟩
  · intro s hs hl
    have hse : s ≠ "" := by intro h; rw [h] at hl; exact absurd hl (by decide)
    rw [set_page_setup_paperSize, hs]
    simp [strOr, if_neg hse, hl]
  · intro s hs hl
    have hse : s ≠ "" := by intro h; rw [h] at hl; exact absurd hl (by decide)
    have hne : pyLower s ≠ "letter" := by rw [hl]; decide
    rw [set_page_setup_paperSize, hs]
    simp [strOr, if_neg hse, hl, hne]
  · intro s hs hl
    have hse : s ≠ "" := by intro h; rw [h] at hl; exact absurd hl (by decide)
    have hn1 : pyLower s ≠ "letter" := by rw [hl]; decide
    have hn2 : pyLower s ≠ "legal" := by rw [hl]; decide
    rw [set_page_setup_paperSize, hs]
    simp [strOr, if_neg hse, hl, hn1, hn2]
  · intro s hs hl
    have hse : s ≠ "" := by intro h; rw [h] at hl; exact absurd hl (by decide)
    have hn1 : pyLower s ≠ "letter" := by rw [hl]; decide
    have hn2 : pyLower s ≠ "legal" := by rw [hl]; decide
    have hn3 : pyLower s ≠ "a4" := by rw [hl]; decide
    rw [set_page_setup_paperSize, hs]
    simp [strOr, if_neg hse, hl, hn1, hn2, hn3]
  · intro s hs h1 h2 h3 h4
    rw [set_page_setup_paperSize, hs]
    by_cases hse : s = ""
    · subst hse
      decide
    · simp [strOr, if_neg hse, h1, h2, h3, h4]
  · intro hs
    rw [set_page_setup_paperSize, hs]
    decide
  · intro o ho hl
    have hse : o ≠ "" := by intro h; rw [h] at hl; exact absurd hl (by decide)
    rw [set_page_setup_orientation, ho]
    simp [strOr, if_neg hse, hl]
  · intro o ho hl hse
    rw [set_page_setup_orientation, ho]
    simp [strOr, if_neg hse, hl]
  · intro ho
    rw [set_page_setup_orientation, ho]
    decide
  · intro ho
    rw [set_page_setup_orientation, ho]
    decide

/-- The C9 counterexample settings: an explicitly empty orientation. -/
def stC9 : SettingsCfg := { page := some { orientation := some "" } }

/-- C9 counterexample: the empty orientation string is a value other than
"portrait" (also case-insensitively), so the claim demands landscape, but
the code produces portrait. -/
theorem claim_C9_counterexample :
    pyLower "" ≠ "portrait" ∧
    (set_page_setup emptyWs stC9).pageSetup.orientation = some "portrait" ∧
    (set_page_setup emptyWs stC9).pageSetup.orientation ≠ some "landscape" := by
  refine ⟨by decide, rfl, by decide⟩

theorem claim_C9_witness :
    (set_page_setup emptyWs { page := some { size := some "A4" } }).pageSetup.paperSize
      = some 9 ∧
    (set_page_setup emptyWs { page := some { size := some "tabloid" } }).pageSetup.paperSize
      = some 1 ∧
    (set_page_setup emptyWs { page := none }).pageSetup.paperSize = some 1 ∧
    (set_page_setup emptyWs
      { page := some { orientation := some "LANDSCAPE" } }).pageSetup.orientation
      = some "landscape" ∧
    (set_page_setup emptyWs
      { page := some { orientation := some "Portrait" } }).pageSetup.orientation
      = some "portrait" := by
  refine ⟨?_, ?_, ?_, ?_, ?_⟩
  · exact (claim_C9_paper_orientation emptyWs _).2.2.1 "A4" rfl (by decide)
  · exact (claim_C9_paper_orientation emptyWs _).2.2.2.2.1 "tabloid" rfl
      (by decide) (by decide) (by decide) (by decide)
  · exact (claim_C9_paper_orientation emptyWs _).2.2.2.2.2.1 rfl
  · exact (claim_C9_paper_orientation emptyWs _).2.2.2.2.2.2.2.1 "LANDSCAPE" rfl
      (by decide) (by decide)
  · exact (claim_C9_paper_orientation emptyWs _).2.2.2.2.2.2.1 "Portrait" rfl (by decide)

/-! ## The compile pipeline: sheets, titles, error propagation -/

theorem error_bind {α β : Type} (e : String) (f : α → Except String β) :
    (Except.error e >>= f) = .error e := rfl

theorem processSheet_fst (settings : SettingsCfg) (sidx : Nat) (sheet : SheetCfg)
    (ts : String × Ws) (h : processSheet settings sidx sheet = .ok ts) :
    ts.1 = pyTake (sheet.name.getD ("Sheet" ++ toString (sidx + 1))) 31 := by
  simp only [processSheet] at h
  cases hw : processWidgets (set_page_setup emptyWs settings) (sheet.widgets.getD []) with
  | error e =>
    rw [hw, error_bind] at h
    cases h
  | ok ws =>
    rw [hw, ok_bind] at h
    cases h
    rfl

theorem processSheets_titles (settings : SettingsCfg) :
    ∀ (sheets : List SheetCfg) (sidx : Nat) (l : List (String × Ws)),
    processSheets settings sidx sheets = .ok l →
    l.length = sheets.length ∧
    ∀ (i : Nat) (sheet : SheetCfg), sheets.get? i = some sheet →
      ∃ entry, l.get? i = some entry ∧
        entry.1 = pyTake (sheet.name.getD ("Sheet" ++ toString (sidx + i + 1))) 31 := by
  intro sheets
  induction sheets with
  | nil =>
    intro sidx l h
    simp only [processSheets] at h
    cases h
    exact ⟨rfl, by simp⟩
  | cons sheet rest ih =>
    intro sidx l h
    simp only [processSheets] at h
    cases h1 : processSheet settings sidx sheet with
    | error e =>
      rw [h1, error_bind] at h
      cases h
    | ok ts =>
      rw [h1, ok_bind] at h
      cases h2 : processSheets settings (sidx + 1) rest with
      | error e =>
        rw [h2, error_bind] at h
        cases h
      | ok others =>
        rw [h2, ok_bind] at h
        cases h
        obtain ⟨ihlen, ihget⟩ := ih (sidx + 1) others h2
        constructor
        · simp [ihlen]
        · intro i sheet2 hi
          cases i with
          | zero =>
            simp only [List.get?_cons_zero, Option.some_inj] at hi
            subst hi
            exact ⟨ts, rfl, processSheet_fst settings sidx _ ts h1⟩
          | succ i2 =>
            simp only [List.get?_cons_succ] at hi ⊢
            obtain ⟨entry, he, ht⟩ := ihget i2 sheet2 hi
            refine ⟨entry, he, ?_⟩
            rwa [show sidx + 1 + i2 + 1 = sidx + (i2 + 1) + 1 by omega] at ht

/-- C5: `compile_workbook` creates exactly one worksheet per payload
sheet, in order, whose recorded title is the sheet's name (defaulting to
"Sheet{i+1}") truncated to at most 31 characters; the truncation leaves
names of at most 31 characters unchanged and cuts longer names to exactly
31 characters. -/
theorem claim_C5_sheet_titles (p : CompilePayload) (wb : Workbook)
    (h : compile_workbook p = .ok wb) :
    wb.sheets.length = p.sheets.length ∧
    (∀ (i : Nat) (sheet : SheetCfg), p.sheets.get? i = some sheet →
      ∃ entry, wb.sheets.get? i = some entry ∧
        entry.1 = pyTake (sheet.name.getD ("Sheet" ++ toString (i + 1))) 31) ∧
    (∀ s : String, s.length ≤ 31 → pyTake s 31 = s) ∧
    (∀ s : String, 31 < s.length → (pyTake s 31).length = 31) ∧
    (∀ s : String, (pyTake s 31).length ≤ 31) := by
  have hT : ∀ l, processSheets p.settings 0 p.sheets = .ok l → wb.sheets = l := by
    intro l hl
    simp only [compile_workbook] at h
    rw [hl, ok_bind] at h
    cases h
    rfl
  cases hps : processSheets p.settings 0 p.sheets with
  | error e =>
    simp only [compile_workbook] at h
    rw [hps, error_bind] at h
    cases h
  | ok l =>
    obtain ⟨hlen, hget⟩ := processSheets_titles p.settings p.sheets 0 l hps
    rw [hT l hps]
    refine ⟨hlen, ?_, ?_, ?_, ?_⟩
    · intro i sheet hi
      obtain ⟨entry, he, ht⟩ := hget i sheet hi
      refine ⟨entry, he, ?_⟩
      rwa [show 0 + i + 1 = i + 1 by omega] at ht
    · intro s hs
      show (⟨s.data.take 31⟩ : String) = s
      rw [List.take_of_length_le hs]
    · intro s hs
      have hd : s.length = s.data.length := rfl
      show (s.data.take 31).length = 31
      rw [List.length_take]
      omega
    · intro s
      show (s.data.take 31).length ≤ 31
      rw [List.length_take]
      exact Nat.min_le_left _ _

/-- The C5 witness payload: one sheet with a 36-character name. -/
def pC5 : CompilePayload :=
  { project := "P"
    sheets := [{ name := some "abcdefghijklmnopqrstuvwxyz0123456789" }]
    settings := {} }

theorem claim_C5_witness :
    ∃ wb, compile_workbook pC5 = .ok wb ∧ wb.sheets.length = 1 ∧
      (∃ entry, wb.sheets.get? 0 = some entry ∧
        entry.1 = pyTake "abcdefghijklmnopqrstuvwxyz0123456789" 31) ∧
      (pyTake "abcdefghijklmnopqrstuvwxyz0123456789" 31).length = 31 ∧
      pyTake "abcdefghijklmnopqrstuvwxyz0123456789" 31 = "abcdefghijklmnopqrstuvwxyz01234" := by
  have hrun : ∃ wb, compile_workbook pC5 = .ok wb := ⟨_, rfl⟩
  obtain ⟨wb, h⟩ := hrun
  obtain ⟨hlen, hget, _, hcut, _⟩ := claim_C5_sheet_titles pC5 wb h
  refine ⟨wb, h, hlen.trans (by decide), ?_, hcut _ (by decide), by decide⟩
  exact hget 0 _ rfl

/-! ## C6: the table title row underflows the grid for y = 1 -/

theorem processWidget_table_y1_errors (ws : Ws) (w : Widget)
    (ht : w.type = some "table") (hy : w.y.getD 1 = 1) :
    processWidget ws w = .error "Row or column values must be at least 1" := by
  simp only [processWidget, ht, hy]
  rw [show (1 : Int) - 1 = 0 by norm_num]
  rw [show wcell ws 0 (w.x.getD 1) (fun cs =>
      { cs with value := some (.s (strOr w.title "Table")), font := some { bold := true } }) =
      .error "Row or column values must be at least 1" by
    unfold wcell
    rw [if_neg (by omega)]]
  rfl

theorem processWidgets_mem_errors :
    ∀ (l : List Widget) (w : Widget), w ∈ l →
    (∀ ws, ∃ e, processWidget ws w = .error e) →
    ∀ ws, ∃ e, processWidgets ws l = .error e := by
  intro l
  induction l with
  | nil =>
    intro w hw
    cases hw
  | cons a rest ih =>
    intro w hw herr ws
    rcases List.mem_cons.mp hw with heq | hmem
    · subst heq
      obtain ⟨e, he⟩ := herr ws
      exact ⟨e, by simp only [processWidgets, he, error_bind]⟩
    · cases ha : processWidget ws a with
      | error e => exact ⟨e, by simp only [processWidgets, ha, error_bind]⟩
      | ok ws1 =>
        obtain ⟨e, he⟩ := ih w hmem herr ws1
        exact ⟨e, by simp only [processWidgets, ha, ok_bind, he]⟩

theorem processSheet_widget_errors (settings : SettingsCfg) (sidx : Nat) (sheet : SheetCfg)
    (w : Widget) (hw : w ∈ sheet.widgets.getD [])
    (herr : ∀ ws, ∃ e, processWidget ws w = .error e) :
    ∃ e, processSheet settings sidx sheet = .error e := by
  obtain ⟨e, he⟩ := processWidgets_mem_errors (sheet.widgets.getD []) w hw herr
    (set_page_setup emptyWs settings)
  exact ⟨e, by simp only [processSheet, he, error_bind]⟩

theorem processSheets_mem_errors (settings : SettingsCfg) :
    ∀ (sheets : List SheetCfg) (sheet : SheetCfg), sheet ∈ sheets →
    (∀ sidx, ∃ e, processSheet settings sidx sheet = .error e) →
    ∀ sidx, ∃ e, processSheets settings sidx sheets = .error e := by
  intro sheets
  induction sheets with
  | nil =>
    intro sheet hs
    cases hs
  | cons a rest ih =>
    intro sheet hs herr sidx
    rcases List.mem_cons.mp hs with heq | hmem
    · subst heq
      obtain ⟨e, he⟩ := herr sidx
      exact ⟨e, by simp only [processSheets, he, error_bind]⟩
    · cases ha : processSheet settings sidx a with
      | error e => exact ⟨e, by simp only [processSheets, ha, error_bind]⟩
      | ok ts =>
        obtain ⟨e, he⟩ := ih sheet hmem herr (sidx + 1)
        exact ⟨e, by simp only [processSheets, ha, ok_bind, he, error_bind]⟩

/-- C6: the widget dispatch writes a table's bold title one row above the
widget's row, at row y - 1 (proved here for any table widget whose
rendering succeeds); consequently, because worksheet row 0 is invalid, a
table widget with y = 1 — a valid 1-based grid coordinate — makes the
whole compilation fail with the library's row-bound error. -/
theorem claim_C6_title_row_underflow :
    (∀ (ws : Ws) (w : Widget), w.type = some "table" →
      2 ≤ w.y.getD 1 → 1 ≤ w.x.getD 1 →
      (w.x.getD 1) + ((w.columns.getD []).length : Int) ≤ 18279 →
      w.cellFmt.getD [] = [] →
      ∃ ws2, processWidget ws w = .ok ws2 ∧
        (ws2.cells (w.y.getD 1 - 1) (w.x.getD 1)).value =
          some (.s (strOr w.title "Table")) ∧
        (ws2.cells (w.y.getD 1 - 1) (w.x.getD 1)).font = some { bold := true }) ∧
    (∀ (p : CompilePayload) (sheet : SheetCfg) (w : Widget),
      sheet ∈ p.sheets → w ∈ sheet.widgets.getD [] →
      w.type = some "table" → w.y.getD 1 = 1 →
      ∃ e, compile_workbook p = .error e) := by
  constructor
  · intro ws w ht hy hx hb hcf
    have h1 := wcell_ok ws (w.y.getD 1 - 1) (w.x.getD 1) (fun cs =>
      { cs with value := some (.s (strOr w.title "Table")), font := some { bold := true } })
      (by omega) hx
    set ws1 := setCell ws (w.y.getD 1 - 1) (w.x.getD 1) (fun cs =>
      { cs with value := some (.s (strOr w.title "Table")), font := some { bold := true } })
      with hws1
    obtain ⟨ws4, hrun, hhdr, hdata, hfmt, hframe, hup, hm, hch, hp⟩ :=
      write_table_phases ws1 (w.y.getD 1) (w.x.getD 1) w (by omega) hx hb
    rw [hcf, applyCellFmt_nil] at hrun
    refine ⟨ws4, ?_, ?_, ?_⟩
    · simp only [processWidget, ht, h1, ok_bind, hrun, Except.map, pure_ok]
    · rw [hup _ _ (by omega), hws1, setCell_cells_at]
    · rw [hup _ _ (by omega), hws1, setCell_cells_at]
  · intro p sheet w hs hw ht hy
    have herr : ∀ ws, ∃ e, processWidget ws w = .error e :=
      fun ws => ⟨_, processWidget_table_y1_errors ws w ht hy⟩
    obtain ⟨e, he⟩ := processSheets_mem_errors p.settings p.sheets sheet hs
      (fun sidx => processSheet_widget_errors p.settings sidx sheet w hw herr) 0
    exact ⟨e, by simp only [compile_workbook, he, error_bind]⟩

/-- The C6 witness payload: one sheet holding a table widget at y = 1. -/
def pC6 : CompilePayload :=
  { project := "P"
    sheets := [{ name := some "S",
                 widgets := some [{ type := some "table", x := some 2, y := some 1,
                                    columns := some ["A"] }] }]
    settings := {} }

theorem claim_C6_witness :
    (∃ ws2, processWidget emptyWs
        { type := some "table", x := some 2, y := some 3, columns := some ["A"] } = .ok ws2 ∧
      (ws2.cells 2 2).value = some (.s "Table") ∧
      (ws2.cells 2 2).font = some { bold := true }) ∧
    ∃ e, compile_workbook pC6 = .error e := by
  constructor
  · obtain ⟨ws2, hrun, hval, hfont⟩ :=
      claim_C6_title_row_underflow.1 emptyWs
        { type := some "table", x := some 2, y := some 3, columns := some ["A"] }
        rfl (by decide) (by decide) (by decide) rfl
    exact ⟨ws2, hrun, by simpa using hval, by simpa using hfont⟩
  · exact claim_C6_title_row_underflow.2 pC6 _ _
      (List.mem_singleton.mpr rfl) (List.mem_singleton.mpr rfl) rfl rfl

/-! ## C8: determinism modulo timestamp metadata -/

/-- C8: the response produced by the handler — the workbook content, the
media type and the download header — is a function of the payload alone:
running the handler at two different ambient times yields identical
results in every component except the timestamp metadata added by the
serialization library. -/
theorem claim_C8_deterministic (p : CompilePayload) (t1 t2 : Nat) :
    (handle_compile p t1).map (fun resp =>
      (resp.body, resp.mediaType, resp.contentDisposition)) =
    (handle_compile p t2).map (fun resp =>
      (resp.body, resp.mediaType, resp.contentDisposition)) := by
  unfold handle_compile
  cases h : compile_workbook p <;> simp [h, saveBytes, Except.map]
